import Mathlib

/-!
# DeepDriveClientConnection

A shallow embedding of `DeepDriveClientConnection.cpp`: the per-client connection
worker of the DeepDrive plugin's control server.

Conventions of the embedding.

* A pointer is an `Option`: `none` is the null pointer.
* `uint32` values are natural numbers; the one place where the source does
  arithmetic that can leave the range (`minSize += minSize / 4`) reduces
  modulo `2 ^ 32`.
* Every call into the platform (socket, allocator, message assembler, the
  server singleton, the thread sleep) is recorded as an `Event`; a member
  function returns the new connection together with the events it performed,
  in program order.
* Calling through a null socket pointer, or executing the assembler's delegate
  while nothing is bound to it, is a `Fault`.
* `UE_LOG` lines have no effect on the connection and are left out.
* The two sleep times `0.025f` and `0.005f` seconds are kept as the
  millisecond counts 25 and 5.
-/

namespace DeepDrive

/-- Modelled from the spec: the enumeration `deepdrive::server::MessageId` is declared in
`DeepDriveServerMessageHeader.h`, which is not among the sources. The eight named kinds are the
message types the specification lists; `Other raw` stands for every further identifier a peer
can put into a header. -/
inductive MessageId where
  | RegisterClientRequest
  | RegisterClientResponse
  | UnregisterClientRequest
  | UnregisterClientResponse
  | RegisterCaptureCameraRequest
  | RequestAgentControlRequest
  | ReleaseAgentControlRequest
  | SetAgentControlValuesRequest
  | Other (raw : Nat)
  deriving DecidableEq, Repr

/-- Modelled from the spec: `deepdrive::server::MessageHeader` (declared in a header that is not
among the sources) carries a message-type identifier and the total byte length; `payload` are the
bytes of the derived message that follow the header in memory. -/
structure MessageHeader where
  message_id : MessageId
  message_size : Nat
  payload : List Nat
  deriving DecidableEq, Repr

/-- Modelled from the spec: `MessageHeader::clone` (not among the sources) returns a duplicate of
the message, owned by the caller. -/
def MessageHeader.clone (m : MessageHeader) : MessageHeader := m

/-- Modelled from the spec: `RegisterClientResponse` (declared in
`DeepDriveServerConnectionMessages.h`, not among the sources) with the payload fields of the wire
protocol. `granted_master_role` is the boolean the source assigns the literal `1` to, and
`shared_memory_name` is the fixed `char` array of `SharedMemNameSize` bytes. -/
structure RegisterClientResponse where
  message_id : MessageId
  message_size : Nat
  client_id : Nat
  granted_master_role : Bool
  server_protocol_version : Nat
  shared_memory_name : List Nat
  shared_memory_size : Nat
  max_supported_cameras : Nat
  max_capture_resolution : Nat
  inactivity_timeout_ms : Nat
  deriving DecidableEq, Repr

/-- Modelled from the spec: `UnregisterClientResponse` (not among the sources) is an
acknowledgement with no payload beyond the header. -/
structure UnregisterClientResponse where
  message_id : MessageId
  message_size : Nat
  deriving DecidableEq, Repr

/-- What one `FSocket::Send` call is given: the object whose bytes are written. -/
inductive Wire where
  | RegisterClientResponse (response : RegisterClientResponse)
  | UnregisterClientResponse (response : UnregisterClientResponse)
  | Message (response : MessageHeader) (count : Nat)
  deriving DecidableEq, Repr

/-- The calls the connection makes into its collaborators. -/
inductive Event where
  | HasPendingData
  | deleteBuffer (buffer : Option Nat)
  | Malloc (count : Nat)
  | Recv (bufferSize : Nat)
  | add (data : List Nat)
  | Send (data : Wire)
  | Free (response : MessageHeader)
  | Sleep (milliseconds : Nat)
  | Close
  | deleteSocket
  | enqueueMessage (message : MessageHeader)
  deriving DecidableEq, Repr

/-- Undefined behaviour the embedding makes explicit. -/
inductive Fault where
  | nullSocket
  | unboundDelegate
  | scriptExhausted
  deriving DecidableEq, Repr

/-- The three callables `Init` stores in the dispatch table. -/
inductive Handler where
  | registerClient
  | unregisterClient
  | forward2Server
  deriving DecidableEq, Repr

/-- The dispatch table `std::map<MessageId, std::function<...>>` as an association list with
at most one entry per key. -/
abbrev MessageHandlers := List (MessageId × Handler)

/-- Lookup `std::map::find`: the mapped value, or `none` for `end()`. -/
def MessageHandlers.find : MessageHandlers → MessageId → Option Handler
  | [], _ => none
  | (k, h) :: rest, key => if k = key then some h else MessageHandlers.find rest key

/-- Insert-or-assign `m[key] = h` of `std::map`. -/
def MessageHandlers.assign : MessageHandlers → MessageId → Handler → MessageHandlers
  | [], key, h => [(key, h)]
  | (k, h0) :: rest, key, h =>
    if k = key then (k, h) :: rest else (k, h0) :: MessageHandlers.assign rest key h

/-- The message assembler member: whether its `m_HandleMessage` delegate is bound to
`handleClientRequest`, and the bytes of an incomplete message it retains between calls. -/
structure MessageAssembler where
  m_HandleMessage : Bool
  retained : List Nat
  deriving DecidableEq, Repr

/-- The data members of `DeepDriveClientConnection`. -/
structure DeepDriveClientConnection where
  m_Socket : Option Nat
  m_ClientId : Nat
  m_isStopped : Bool
  m_isMaster : Bool
  m_ReceiveBuffer : Option Nat
  m_curReceiveBufferSize : Nat
  m_MessageHandlers : MessageHandlers
  m_MessageAssembler : MessageAssembler
  m_ResponseQueue : List (Option MessageHeader)
  deriving DecidableEq, Repr

/-- The shared-memory capture sink `USharedMemCaptureSinkComponent`: its name, already converted
by `TCHAR_TO_ANSI` to the bytes in front of the terminating zero, and `MaxSharedMemSize`. -/
structure SharedMemSink where
  sharedMemoryName : List Nat
  MaxSharedMemSize : Nat

/-- Declarations the source uses from headers that are not among the sources: the constant
`RegisterClientResponse::SharedMemNameSize` and the values the two response constructors
produce. -/
structure Declarations where
  SharedMemNameSize : Nat
  newRegisterClientResponse : RegisterClientResponse
  newUnregisterClientResponse : UnregisterClientResponse

/-- A call another thread makes on the connection. -/
inductive ForeignCall where
  | terminate
  | enqueueResponse (message : Option MessageHeader)
  deriving DecidableEq, Repr

/-- What the platform answers during one pass through the loop of `Run`: the capture singleton's
sink, the result and out-parameter of `HasPendingData`, the allocator, the result of `Recv` with
the bytes it stored, `MessageAssembler::add` as a function of the retained bytes and the new chunk
(the bytes it retains next and the messages it completes, each of which it hands to its delegate),
and the calls other threads make while the worker sleeps. -/
structure Platform where
  getSharedMemorySink : Option SharedMemSink
  HasPendingData : Bool × Nat
  Malloc : Nat → Option Nat
  Recv : Nat → Bool × List Nat
  add : List Nat → List Nat → List Nat × List MessageHeader
  foreign : List ForeignCall

/-- Length `strlen` of the C string stored in `src`: the bytes in front of the first zero. -/
def strlen (src : List Nat) : Nat := (src.takeWhile (fun b => b ≠ 0)).length

/-- The stores `strncpy(dest, src, count)` performs, as (index, byte) pairs: exactly `count`
bytes, the characters of `src` while they last and zeros after them. -/
def strncpy (src : List Nat) (count : Nat) : List (Nat × Nat) :=
  (List.range count).map (fun i => (i, if i < strlen src then src.getD i 0 else 0))

/-- Apply stores to a `char` array, in order. -/
def applyStores (field : List Nat) (stores : List (Nat × Nat)) : List Nat :=
  stores.foldl (fun f w => f.set w.1 w.2) field

/-- The stores lines 130 and 131 make into `response.shared_memory_name`. -/
def sharedMemoryNameStores (d : Declarations) (sharedMemName : List Nat) : List (Nat × Nat) :=
  strncpy sharedMemName (d.SharedMemNameSize - 1) ++ [(d.SharedMemNameSize - 1, 0)]

namespace DeepDriveClientConnection

/-- Lines 168-178, `resizeReceiveBuffer`. The recorded size is updated whatever `Malloc`
returns. -/
def resizeReceiveBuffer (p : Platform) (minSize : Nat) (s : DeepDriveClientConnection) :
    DeepDriveClientConnection × List Event × Bool :=
  if minSize > s.m_curReceiveBufferSize then
    let minSize1 := (minSize + minSize / 4) % 2 ^ 32
    let buffer := p.Malloc minSize1
    ({ s with m_ReceiveBuffer := buffer, m_curReceiveBufferSize := minSize1 },
      [Event.deleteBuffer s.m_ReceiveBuffer, Event.Malloc minSize1], buffer.isSome)
  else
    (s, [], s.m_ReceiveBuffer.isSome)

/-- Lines 20-31, the constructor. `m_isMaster` has no initialiser in the source file, the
value it starts with is the argument `isMaster`; the creation of the worker thread is not
recorded. -/
def construct (p : Platform) (socket : Option Nat) (clientId : Nat) (isMaster : Bool) :
    DeepDriveClientConnection × List Event :=
  let s : DeepDriveClientConnection :=
    { m_Socket := socket, m_ClientId := clientId, m_isStopped := false, m_isMaster := isMaster,
      m_ReceiveBuffer := none, m_curReceiveBufferSize := 0, m_MessageHandlers := [],
      m_MessageAssembler := { m_HandleMessage := false, retained := [] },
      m_ResponseQueue := [] }
  let r := resizeReceiveBuffer p (64 * 1024) s
  (r.1, r.2.1)

/-- Lines 38-52, `Init`. -/
def Init (s : DeepDriveClientConnection) : DeepDriveClientConnection × Bool :=
  let t := s.m_MessageHandlers
  let t := t.assign MessageId.RegisterClientRequest Handler.registerClient
  let t := t.assign MessageId.UnregisterClientRequest Handler.unregisterClient
  let t := t.assign MessageId.RegisterCaptureCameraRequest Handler.forward2Server
  let t := t.assign MessageId.RequestAgentControlRequest Handler.forward2Server
  let t := t.assign MessageId.ReleaseAgentControlRequest Handler.forward2Server
  let t := t.assign MessageId.SetAgentControlValuesRequest Handler.forward2Server
  ({ s with m_MessageHandlers := t,
            m_MessageAssembler := { s.m_MessageAssembler with m_HandleMessage := true } },
    s.m_Socket.isSome)

/-- Lines 99-101, `Stop`. -/
def Stop (s : DeepDriveClientConnection) : DeepDriveClientConnection := s

/-- Lines 103-106, `terminate`. -/
def terminate (s : DeepDriveClientConnection) : DeepDriveClientConnection :=
  { s with m_isStopped := true }

/-- Line 43, the lambda `forward2Server`. -/
def forward2Server (message : MessageHeader) (isMaster : Bool) (s : DeepDriveClientConnection) :
    Except Fault (DeepDriveClientConnection × List Event) :=
  if isMaster then .ok (s, [Event.enqueueMessage message.clone]) else .ok (s, [])

/-- Lines 115-143, `registerClient`. -/
def registerClient (d : Declarations) (p : Platform) (_message : MessageHeader)
    (_isMaster : Bool) (s : DeepDriveClientConnection) :
    Except Fault (DeepDriveClientConnection × List Event) :=
  let response := d.newRegisterClientResponse
  let response := { response with client_id := s.m_ClientId }
  let response := { response with granted_master_role := true }
  let response := { response with server_protocol_version := 1 }
  let response :=
    match p.getSharedMemorySink with
    | some sharedMemSink =>
      { response with
          shared_memory_name :=
            applyStores response.shared_memory_name
              (sharedMemoryNameStores d sharedMemSink.sharedMemoryName),
          shared_memory_size := sharedMemSink.MaxSharedMemSize }
    | none => response
  let response := { response with max_supported_cameras := 8 }
  let response := { response with max_capture_resolution := 2048 }
  let response := { response with inactivity_timeout_ms := 1000 }
  match s.m_Socket with
  | none => .error Fault.nullSocket
  | some _ =>
    .ok ({ s with m_isMaster := true }, [Event.Send (Wire.RegisterClientResponse response)])

/-- Lines 145-153, `unregisterClient`. -/
def unregisterClient (d : Declarations) (_message : MessageHeader) (_isMaster : Bool)
    (s : DeepDriveClientConnection) : Except Fault (DeepDriveClientConnection × List Event) :=
  let response := d.newUnregisterClientResponse
  match s.m_Socket with
  | none => .error Fault.nullSocket
  | some _ => .ok (s, [Event.Send (Wire.UnregisterClientResponse response)])

/-- Call of a stored `std::function`. -/
def invoke (d : Declarations) (p : Platform) (h : Handler) (message : MessageHeader)
    (isMaster : Bool) (s : DeepDriveClientConnection) :
    Except Fault (DeepDriveClientConnection × List Event) :=
  match h with
  | Handler.registerClient => registerClient d p message isMaster s
  | Handler.unregisterClient => unregisterClient d message isMaster s
  | Handler.forward2Server => forward2Server message isMaster s

/-- Lines 108-113, `handleClientRequest`. -/
def handleClientRequest (d : Declarations) (p : Platform) (message : MessageHeader)
    (s : DeepDriveClientConnection) : Except Fault (DeepDriveClientConnection × List Event) :=
  match s.m_MessageHandlers.find message.message_id with
  | some h => invoke d p h message s.m_isMaster s
  | none => .ok (s, [])

/-- Lines 155-165, `shutdown`. -/
def shutdown (s : DeepDriveClientConnection) : DeepDriveClientConnection × List Event :=
  match s.m_Socket with
  | some _ => ({ s with m_Socket := none }, [Event.Close, Event.deleteSocket])
  | none => (s, [])

/-- Lines 180-184, `enqueueResponse`. -/
def enqueueResponse (message : Option MessageHeader) (s : DeepDriveClientConnection) :
    DeepDriveClientConnection :=
  match message with
  | some m => { s with m_ResponseQueue := s.m_ResponseQueue ++ [some m] }
  | none => s

/-- The delegate calls `MessageAssembler::add` makes for the messages it completed, in arrival
order; each runs `handleClientRequest` on the connection the previous one left. -/
def deliver (d : Declarations) (p : Platform) :
    List MessageHeader → DeepDriveClientConnection →
      Except Fault (DeepDriveClientConnection × List Event)
  | [], s => .ok (s, [])
  | m :: rest, s =>
    if s.m_MessageAssembler.m_HandleMessage then
      match handleClientRequest d p m s with
      | .error f => .error f
      | .ok (s1, ev1) =>
        match deliver d p rest s1 with
        | .error f => .error f
        | .ok (s2, ev2) => .ok (s2, ev1 ++ ev2)
    else .error Fault.unboundDelegate

/-- Lines 58-77 of `Run`: the poll, the resize, the receive and the hand-over to the assembler.
The third component is `sleepTime` in milliseconds. -/
def receive (d : Declarations) (p : Platform) (s : DeepDriveClientConnection) :
    Except Fault (DeepDriveClientConnection × List Event × Nat) :=
  match s.m_Socket with
  | none => .error Fault.nullSocket
  | some _ =>
    if p.HasPendingData.1 then
      if p.HasPendingData.2 ≠ 0 then
        let r := resizeReceiveBuffer p p.HasPendingData.2 s
        if r.2.2 then
          let got := p.Recv r.1.m_curReceiveBufferSize
          if got.1 then
            let a := p.add r.1.m_MessageAssembler.retained got.2
            match deliver d p a.2
                { r.1 with m_MessageAssembler :=
                    { r.1.m_MessageAssembler with retained := a.1 } } with
            | .error f => .error f
            | .ok (s2, ev) =>
              .ok (s2, [Event.HasPendingData] ++ r.2.1 ++
                    [Event.Recv r.1.m_curReceiveBufferSize, Event.add got.2] ++ ev, 5)
          else
            .ok (r.1, [Event.HasPendingData] ++ r.2.1 ++
                  [Event.Recv r.1.m_curReceiveBufferSize], 25)
        else .ok (r.1, [Event.HasPendingData] ++ r.2.1, 25)
      else .ok (s, [Event.HasPendingData], 25)
    else .ok (s, [Event.HasPendingData], 25)

/-- Lines 79-89 of `Run`: one non-blocking dequeue and, for a non-null response, the write to the
socket and the release of its storage. -/
def respond (s : DeepDriveClientConnection) :
    Except Fault (DeepDriveClientConnection × List Event) :=
  match s.m_ResponseQueue with
  | [] => .ok (s, [])
  | none :: rest => .ok ({ s with m_ResponseQueue := rest }, [])
  | some response :: rest =>
    match s.m_Socket with
    | none => .error Fault.nullSocket
    | some _ =>
      .ok ({ s with m_ResponseQueue := rest },
        [Event.Send (Wire.Message response response.message_size), Event.Free response])

/-- A call from another thread, applied to the connection. -/
def foreignCall (s : DeepDriveClientConnection) : ForeignCall → DeepDriveClientConnection
  | ForeignCall.terminate => terminate s
  | ForeignCall.enqueueResponse message => enqueueResponse message s

/-- Lines 58-91 of `Run`: one pass through the loop body. The calls of other threads that arrive
during the pass take effect while the worker sleeps. -/
def RunIteration (d : Declarations) (p : Platform) (s : DeepDriveClientConnection) :
    Except Fault (DeepDriveClientConnection × List Event) :=
  match receive d p s with
  | .error f => .error f
  | .ok (s1, ev1, sleepTime) =>
    match respond s1 with
    | .error f => .error f
    | .ok (s2, ev2) =>
      .ok (p.foreign.foldl foreignCall s2, ev1 ++ ev2 ++ [Event.Sleep sleepTime])

/-- Lines 54-97, `Run`. The list holds the platform's answers for the passes through the loop,
one entry per pass; the loop running past the end of the list is `Fault.scriptExhausted`. The
third component is the returned `uint32`. -/
def Run (d : Declarations) :
    List Platform → DeepDriveClientConnection →
      Except Fault (DeepDriveClientConnection × List Event × Nat)
  | script, s =>
    if s.m_isStopped then
      .ok ((shutdown s).1, (shutdown s).2, 0)
    else
      match script with
      | [] => .error Fault.scriptExhausted
      | p :: rest =>
        match RunIteration d p s with
        | .error f => .error f
        | .ok (s1, ev1) =>
          match Run d rest s1 with
          | .error f => .error f
          | .ok (s2, ev2, code) => .ok (s2, ev1 ++ ev2, code)

/-- Whether a pass through the loop with the platform answers `p` gets bytes from the socket:
data is pending, the count is not zero, the resize returns true and `Recv` returns true. -/
def received (p : Platform) (s : DeepDriveClientConnection) : Bool :=
  p.HasPendingData.1 && (p.HasPendingData.2 != 0) && (resizeReceiveBuffer p p.HasPendingData.2 s).2.2
    && (p.Recv (resizeReceiveBuffer p p.HasPendingData.2 s).1.m_curReceiveBufferSize).1

/-- The chunk a pass hands to the assembler when it gets bytes. -/
def chunk (p : Platform) (s : DeepDriveClientConnection) : List Nat :=
  (p.Recv (resizeReceiveBuffer p p.HasPendingData.2 s).1.m_curReceiveBufferSize).2

/-- A call of the connection's life cycle made by its owner or by the worker. -/
inductive LifecycleCall where
  | terminate
  | shutdown
  deriving DecidableEq, Repr

/-- A sequence of `terminate` and `shutdown` calls, applied in order. -/
def lifecycle : List LifecycleCall → DeepDriveClientConnection →
    DeepDriveClientConnection × List Event
  | [], s => (s, [])
  | LifecycleCall.terminate :: rest, s => lifecycle rest (terminate s)
  | LifecycleCall.shutdown :: rest, s =>
    ((lifecycle rest (shutdown s).1).1, (shutdown s).2 ++ (lifecycle rest (shutdown s).1).2)

end DeepDriveClientConnection

/-- The objects written to the socket, in order. -/
def sends : List Event → List Wire
  | [] => []
  | Event.Send w :: rest => w :: sends rest
  | _ :: rest => sends rest

/-- The number of `FSocket::Close` calls. -/
def closes (ev : List Event) : Nat := ev.count Event.Close

/-- The events a message handler can produce: a socket write or a call of the coordinator. -/
def Event.fromHandler : Event → Bool
  | Event.Send _ => true
  | Event.enqueueMessage _ => true
  | _ => false

/-- The events of the poll, resize and receive steps of a pass. -/
def Event.fromPoll : Event → Bool
  | Event.HasPendingData => true
  | Event.deleteBuffer _ => true
  | Event.Malloc _ => true
  | Event.Recv _ => true
  | _ => false

/-- The events of the dequeue step of a pass. -/
def Event.fromQueue : Event → Bool
  | Event.Send _ => true
  | Event.Free _ => true
  | _ => false

/-- What no handler and no resize changes: the socket handle, the stop flag, the response queue,
the dispatch table, the delegate binding and the client identifier; a privileged flag that is true
stays true. -/
def SameSession (s s1 : DeepDriveClientConnection) : Prop :=
  s1.m_Socket = s.m_Socket ∧ s1.m_isStopped = s.m_isStopped ∧
  s1.m_ResponseQueue = s.m_ResponseQueue ∧ s1.m_MessageHandlers = s.m_MessageHandlers ∧
  s1.m_MessageAssembler.m_HandleMessage = s.m_MessageAssembler.m_HandleMessage ∧
  s1.m_ClientId = s.m_ClientId ∧ (s.m_isMaster = true → s1.m_isMaster = true)


open DeepDriveClientConnection

/-! ## Concrete inputs -/

/-- Declarations with a name field of four bytes. -/
def exampleDeclarations : Declarations :=
  { SharedMemNameSize := 4,
    newRegisterClientResponse :=
      { message_id := MessageId.RegisterClientResponse, message_size := 40, client_id := 0,
        granted_master_role := false, server_protocol_version := 0,
        shared_memory_name := [7, 7, 7, 7], shared_memory_size := 0, max_supported_cameras := 0,
        max_capture_resolution := 0, inactivity_timeout_ms := 0 },
    newUnregisterClientResponse :=
      { message_id := MessageId.UnregisterClientResponse, message_size := 8 } }

def exampleUnregister : MessageHeader :=
  { message_id := MessageId.UnregisterClientRequest, message_size := 8, payload := [] }

def exampleRegister : MessageHeader :=
  { message_id := MessageId.RegisterClientRequest, message_size := 9, payload := [1] }

def exampleCommand : MessageHeader :=
  { message_id := MessageId.SetAgentControlValuesRequest, message_size := 24, payload := [1, 0, 0, 0] }

def exampleUnknown : MessageHeader :=
  { message_id := MessageId.Other 77, message_size := 8, payload := [] }

/-- A sink whose name has five characters, one more than the example field can hold. -/
def exampleSink : SharedMemSink :=
  { sharedMemoryName := [100, 101, 102, 103, 104], MaxSharedMemSize := 1024 }

/-- A pass in which eight bytes arrive that complete one unregister request. -/
def examplePlatform : Platform :=
  { getSharedMemorySink := some exampleSink,
    HasPendingData := (true, 8),
    Malloc := fun n => some n,
    Recv := fun _ => (true, [1, 2, 3]),
    add := fun retained _ => (retained, [exampleUnregister]),
    foreign := [] }

/-- A pass in which no data is pending. -/
def exampleIdlePlatform : Platform :=
  { getSharedMemorySink := none,
    HasPendingData := (false, 0),
    Malloc := fun n => some n,
    Recv := fun _ => (false, []),
    add := fun retained _ => (retained, []),
    foreign := [] }

/-- A pass in which no data is pending and another thread calls `terminate`. -/
def exampleTerminatingPlatform : Platform :=
  { getSharedMemorySink := none,
    HasPendingData := (false, 0),
    Malloc := fun n => some n,
    Recv := fun _ => (false, []),
    add := fun retained _ => (retained, []),
    foreign := [ForeignCall.terminate] }

/-- A pass in which 100000 bytes are pending and the allocator fails. -/
def exampleFailingPlatform : Platform :=
  { getSharedMemorySink := none,
    HasPendingData := (true, 100000),
    Malloc := fun _ => none,
    Recv := fun _ => (true, [1, 2, 3]),
    add := fun retained _ => (retained, [exampleUnregister]),
    foreign := [] }

/-- A pass in which 100000 bytes are pending and the allocator succeeds. -/
def exampleRetryPlatform : Platform :=
  { getSharedMemorySink := none,
    HasPendingData := (true, 100000),
    Malloc := fun n => some n,
    Recv := fun _ => (true, [1, 2, 3]),
    add := fun retained _ => (retained, [exampleUnregister]),
    foreign := [] }

def exampleQueuedResponse : MessageHeader :=
  { message_id := MessageId.Other 200, message_size := 12, payload := [9, 9, 9, 9] }

/-- A connection as the constructor leaves it: socket 1, client identifier 3. -/
def exampleFresh : DeepDriveClientConnection := (construct examplePlatform (some 1) 3 false).1

/-- The connection after `Init`. -/
def exampleConnection : DeepDriveClientConnection := (Init exampleFresh).1

/-- The connection after `Init` with one response waiting in the queue. -/
def exampleQueued : DeepDriveClientConnection :=
  enqueueResponse (some exampleQueuedResponse) exampleConnection

/-! ## The dispatch table -/

theorem find_assign_same (t : MessageHandlers) (k : MessageId) (h : Handler) :
    (t.assign k h).find k = some h := by
  induction t with
  | nil => simp [MessageHandlers.assign, MessageHandlers.find]
  | cons e rest ih =>
    obtain ⟨k0, h0⟩ := e
    by_cases hk : k0 = k
    · simp [MessageHandlers.assign, MessageHandlers.find, hk]
    · simp [MessageHandlers.assign, MessageHandlers.find, hk, ih]

theorem find_assign_other (t : MessageHandlers) (k key : MessageId) (h : Handler)
    (hne : k ≠ key) : (t.assign k h).find key = t.find key := by
  induction t with
  | nil => simp [MessageHandlers.assign, MessageHandlers.find, hne]
  | cons e rest ih =>
    obtain ⟨k0, h0⟩ := e
    by_cases hk : k0 = k
    · subst hk
      simp [MessageHandlers.assign, MessageHandlers.find, hne]
    · by_cases hk2 : k0 = key
      · subst hk2
        simp [MessageHandlers.assign, MessageHandlers.find, hk]
      · simp [MessageHandlers.assign, MessageHandlers.find, hk, hk2, ih]

theorem Init_find_register (s0 : DeepDriveClientConnection) :
    (Init s0).1.m_MessageHandlers.find MessageId.RegisterClientRequest
      = some Handler.registerClient := by
  simp [Init, find_assign_same, find_assign_other]

theorem Init_find_unregister (s0 : DeepDriveClientConnection) :
    (Init s0).1.m_MessageHandlers.find MessageId.UnregisterClientRequest
      = some Handler.unregisterClient := by
  simp [Init, find_assign_same, find_assign_other]

theorem Init_find_forward (s0 : DeepDriveClientConnection) (k : MessageId)
    (hk : k = MessageId.RegisterCaptureCameraRequest ∨ k = MessageId.RequestAgentControlRequest ∨
      k = MessageId.ReleaseAgentControlRequest ∨ k = MessageId.SetAgentControlValuesRequest) :
    (Init s0).1.m_MessageHandlers.find k = some Handler.forward2Server := by
  rcases hk with hk | hk | hk | hk <;> subst hk <;>
    simp [Init, find_assign_same, find_assign_other]

theorem Init_find_unknown (s0 : DeepDriveClientConnection) (k : MessageId)
    (h0 : s0.m_MessageHandlers = [])
    (h1 : k ≠ MessageId.RegisterClientRequest) (h2 : k ≠ MessageId.UnregisterClientRequest)
    (h3 : k ≠ MessageId.RegisterCaptureCameraRequest)
    (h4 : k ≠ MessageId.RequestAgentControlRequest)
    (h5 : k ≠ MessageId.ReleaseAgentControlRequest)
    (h6 : k ≠ MessageId.SetAgentControlValuesRequest) :
    (Init s0).1.m_MessageHandlers.find k = none := by
  simp [Init, h0, MessageHandlers.assign, MessageHandlers.find, Ne.symm h1, Ne.symm h2,
    Ne.symm h3, Ne.symm h4, Ne.symm h5, Ne.symm h6]

/-! ## Frame lemmas -/

theorem SameSession.refl (s : DeepDriveClientConnection) : SameSession s s := by
  simp [SameSession]

theorem SameSession.trans {a b c : DeepDriveClientConnection} (h1 : SameSession a b)
    (h2 : SameSession b c) : SameSession a c := by
  obtain ⟨a1, a2, a3, a4, a5, a6, a7⟩ := h1
  obtain ⟨b1, b2, b3, b4, b5, b6, b7⟩ := h2
  exact ⟨b1.trans a1, b2.trans a2, b3.trans a3, b4.trans a4, b5.trans a5, b6.trans a6,
    fun h => b7 (a7 h)⟩

theorem sends_append (a b : List Event) : sends (a ++ b) = sends a ++ sends b := by
  induction a with
  | nil => rfl
  | cons e rest ih => cases e <;> simp [sends, ih]

theorem sends_fromPoll (ev : List Event) (h : ∀ e ∈ ev, e.fromPoll = true) : sends ev = [] := by
  induction ev with
  | nil => rfl
  | cons e rest ih =>
    have he := h e (List.mem_cons_self _ _)
    have hr := ih (fun x hx => h x (List.mem_cons_of_mem _ hx))
    cases e <;> simp_all [sends, Event.fromPoll]

theorem closes_append (a b : List Event) : closes (a ++ b) = closes a + closes b := by
  simp [closes, List.count_append]

theorem closes_of_not_mem (ev : List Event) (h : Event.Close ∉ ev) : closes ev = 0 := by
  simp [closes, List.count_eq_zero, h]

theorem resizeReceiveBuffer_session (p : Platform) (minSize : Nat)
    (s : DeepDriveClientConnection) :
    SameSession s (resizeReceiveBuffer p minSize s).1 ∧
      (resizeReceiveBuffer p minSize s).1.m_MessageAssembler = s.m_MessageAssembler ∧
      ∀ e ∈ (resizeReceiveBuffer p minSize s).2.1, e.fromPoll = true := by
  unfold resizeReceiveBuffer
  split <;> simp [SameSession, Event.fromPoll]

theorem registerClient_ok (d : Declarations) (p : Platform) (message : MessageHeader)
    (isMaster : Bool) (s : DeepDriveClientConnection) (hsock : s.m_Socket ≠ none) :
    ∃ response : RegisterClientResponse,
      registerClient d p message isMaster s
        = .ok ({ s with m_isMaster := true },
            [Event.Send (Wire.RegisterClientResponse response)]) := by
  cases hs : s.m_Socket with
  | none => exact absurd hs hsock
  | some sock =>
    simp only [registerClient, hs]
    exact ⟨_, rfl⟩

theorem invoke_ok (d : Declarations) (p : Platform) (h : Handler) (message : MessageHeader)
    (isMaster : Bool) (s : DeepDriveClientConnection) (hsock : s.m_Socket ≠ none) :
    ∃ s1 ev, invoke d p h message isMaster s = .ok (s1, ev) ∧ SameSession s s1 ∧
      s1.m_MessageAssembler = s.m_MessageAssembler ∧ ∀ e ∈ ev, e.fromHandler = true := by
  cases hs : s.m_Socket with
  | none => exact absurd hs hsock
  | some sock =>
    cases h with
    | registerClient =>
      obtain ⟨r, hr⟩ := registerClient_ok d p message isMaster s hsock
      exact ⟨{ s with m_isMaster := true }, [Event.Send (Wire.RegisterClientResponse r)],
        by simp only [invoke, hr], by simp [SameSession], rfl, by simp [Event.fromHandler]⟩
    | unregisterClient =>
      exact ⟨s, [Event.Send (Wire.UnregisterClientResponse d.newUnregisterClientResponse)],
        by simp only [invoke, unregisterClient, hs], by simp [SameSession], rfl,
        by simp [Event.fromHandler]⟩
    | forward2Server =>
      cases isMaster with
      | true =>
        exact ⟨s, [Event.enqueueMessage message.clone], by simp [invoke, forward2Server],
          by simp [SameSession], rfl, by simp [Event.fromHandler]⟩
      | false =>
        exact ⟨s, [], by simp [invoke, forward2Server], by simp [SameSession], rfl, by simp⟩

theorem handleClientRequest_ok (d : Declarations) (p : Platform) (message : MessageHeader)
    (s : DeepDriveClientConnection) (hsock : s.m_Socket ≠ none) :
    ∃ s1 ev, handleClientRequest d p message s = .ok (s1, ev) ∧ SameSession s s1 ∧
      s1.m_MessageAssembler = s.m_MessageAssembler ∧ ∀ e ∈ ev, e.fromHandler = true := by
  unfold handleClientRequest
  cases hf : s.m_MessageHandlers.find message.message_id with
  | none => exact ⟨s, [], rfl, SameSession.refl s, rfl, by simp⟩
  | some h => exact invoke_ok d p h message s.m_isMaster s hsock

theorem deliver_ok (d : Declarations) (p : Platform) (msgs : List MessageHeader)
    (s : DeepDriveClientConnection) (hsock : s.m_Socket ≠ none)
    (hbound : s.m_MessageAssembler.m_HandleMessage = true) :
    ∃ s1 ev, deliver d p msgs s = .ok (s1, ev) ∧ SameSession s s1 ∧
      ∀ e ∈ ev, e.fromHandler = true := by
  induction msgs generalizing s with
  | nil => exact ⟨s, [], rfl, SameSession.refl s, by simp⟩
  | cons m rest ih =>
    obtain ⟨s1, ev1, h1, hs1, ha1, he1⟩ := handleClientRequest_ok d p m s hsock
    have hsock1 : s1.m_Socket ≠ none := by rw [hs1.1]; exact hsock
    have hbound1 : s1.m_MessageAssembler.m_HandleMessage = true := by rw [ha1]; exact hbound
    obtain ⟨s2, ev2, h2, hs2, he2⟩ := ih s1 hsock1 hbound1
    refine ⟨s2, ev1 ++ ev2, ?_, hs1.trans hs2, ?_⟩
    · simp [deliver, hbound, h1, h2]
    · intro e he
      rcases List.mem_append.mp he with h | h
      · exact he1 e h
      · exact he2 e h

theorem handleClientRequest_unregister (d : Declarations) (p : Platform)
    (s0 s : DeepDriveClientConnection) (message : MessageHeader) (hsock : s.m_Socket ≠ none)
    (hT : s.m_MessageHandlers = (Init s0).1.m_MessageHandlers)
    (hid : message.message_id = MessageId.UnregisterClientRequest) :
    handleClientRequest d p message s
      = .ok (s, [Event.Send (Wire.UnregisterClientResponse d.newUnregisterClientResponse)]) := by
  have hf := Init_find_unregister s0
  rw [← hT, ← hid] at hf
  cases hs : s.m_Socket with
  | none => exact absurd hs hsock
  | some sock => simp [handleClientRequest, hf, invoke, unregisterClient, hs]

theorem deliver_unregister_mem (d : Declarations) (p : Platform) (s0 : DeepDriveClientConnection)
    (u : MessageHeader) (hid : u.message_id = MessageId.UnregisterClientRequest)
    (msgs : List MessageHeader) (s s1 : DeepDriveClientConnection) (ev : List Event)
    (hsock : s.m_Socket ≠ none) (hbound : s.m_MessageAssembler.m_HandleMessage = true)
    (hT : s.m_MessageHandlers = (Init s0).1.m_MessageHandlers) (hu : u ∈ msgs)
    (hdel : deliver d p msgs s = .ok (s1, ev)) :
    Wire.UnregisterClientResponse d.newUnregisterClientResponse ∈ sends ev := by
  induction msgs generalizing s s1 ev with
  | nil => cases hu
  | cons m rest ih =>
    obtain ⟨t1, ev1, h1, hs1, ha1, -⟩ := handleClientRequest_ok d p m s hsock
    have hsock1 : t1.m_Socket ≠ none := by rw [hs1.1]; exact hsock
    have hbound1 : t1.m_MessageAssembler.m_HandleMessage = true := by rw [ha1]; exact hbound
    obtain ⟨t2, ev2, h2, -, -⟩ := deliver_ok d p rest t1 hsock1 hbound1
    have hev : ev = ev1 ++ ev2 := by
      simp [deliver, hbound, h1, h2] at hdel
      exact hdel.2.symm
    rw [hev, sends_append]
    rcases List.mem_cons.mp hu with hu | hu
    · subst hu
      have h3 := handleClientRequest_unregister d p s0 s u hsock hT hid
      rw [h3] at h1
      have h4 : ev1 = [Event.Send (Wire.UnregisterClientResponse d.newUnregisterClientResponse)] := by
        injection h1 with h1
        exact (Prod.mk.inj h1).2.symm
      simp [h4, sends]
    · exact List.mem_append_right _
        (ih t1 t2 ev2 hsock1 hbound1 (by rw [hs1.2.2.2.1]; exact hT) hu h2)

/-! ## One pass through the loop -/

theorem receive_ok (d : Declarations) (p : Platform) (s : DeepDriveClientConnection)
    (hsock : s.m_Socket ≠ none) (hbound : s.m_MessageAssembler.m_HandleMessage = true) :
    ∃ s1 evp evd,
      receive d p s
        = .ok (s1, evp ++ (if received p s then [Event.add (chunk p s)] else []) ++ evd,
            if received p s then 5 else 25) ∧
      SameSession s s1 ∧ (∀ e ∈ evp, e.fromPoll = true) ∧ (∀ e ∈ evd, e.fromHandler = true) ∧
      (received p s = false → evd = []) ∧
      (received p s = true → ∃ t, SameSession s t ∧
        deliver d p (p.add s.m_MessageAssembler.retained (chunk p s)).2 t = .ok (s1, evd)) := by
  cases hs : s.m_Socket with
  | none => exact absurd hs hsock
  | some sock =>
    obtain ⟨hr1, hr2, hr3⟩ := resizeReceiveBuffer_session p p.HasPendingData.2 s
    by_cases h1 : p.HasPendingData.1 = true
    · by_cases h2 : p.HasPendingData.2 = 0
      · refine ⟨s, [Event.HasPendingData], [], ?_, SameSession.refl s, ?_, ?_, ?_, ?_⟩
        · simp [receive, hs, h1, h2, received]
        · simp [Event.fromPoll]
        · simp
        · simp
        · simp [received, h2]
      · by_cases h3 : (resizeReceiveBuffer p p.HasPendingData.2 s).2.2 = true
        · by_cases h4 :
            (p.Recv (resizeReceiveBuffer p p.HasPendingData.2 s).1.m_curReceiveBufferSize).1 = true
          · have hrec : received p s = true := by simp [received, h1, h2, h3, h4]
            have ht : SameSession s
                { (resizeReceiveBuffer p p.HasPendingData.2 s).1 with
                  m_MessageAssembler :=
                    { (resizeReceiveBuffer p p.HasPendingData.2 s).1.m_MessageAssembler with
                      retained := (p.add s.m_MessageAssembler.retained (chunk p s)).1 } } := by
              obtain ⟨a1, a2, a3, a4, a5, a6, a7⟩ := hr1
              exact ⟨a1, a2, a3, a4, by simp [hr2], a6, a7⟩
            obtain ⟨s1, evd, hd, hsd, hed⟩ :=
              deliver_ok d p (p.add s.m_MessageAssembler.retained (chunk p s)).2 _
                (by rw [ht.1]; exact hsock) (by rw [ht.2.2.2.2.1]; exact hbound)
            refine ⟨s1, [Event.HasPendingData] ++ (resizeReceiveBuffer p p.HasPendingData.2 s).2.1
                ++ [Event.Recv (resizeReceiveBuffer p p.HasPendingData.2 s).1.m_curReceiveBufferSize],
              evd, ?_, ht.trans hsd, ?_, hed, ?_, ?_⟩
            · have hd2 := hd
              simp only [chunk, hr2] at hd2
              simp [receive, hs, h1, h2, h3, h4, hrec, hr2, hd2, chunk]
            · intro e he
              simp only [List.mem_append, List.mem_singleton] at he
              rcases he with (he | he) | he
              · subst he; rfl
              · exact hr3 e he
              · subst he; rfl
            · intro h; rw [hrec] at h; cases h
            · intro _; exact ⟨_, ht, hd⟩
          · refine ⟨(resizeReceiveBuffer p p.HasPendingData.2 s).1,
              [Event.HasPendingData] ++ (resizeReceiveBuffer p p.HasPendingData.2 s).2.1
                ++ [Event.Recv (resizeReceiveBuffer p p.HasPendingData.2 s).1.m_curReceiveBufferSize],
              [], ?_, hr1, ?_, ?_, ?_, ?_⟩
            · simp [receive, hs, h1, h2, h3, h4, received]
            · intro e he
              simp only [List.mem_append, List.mem_singleton] at he
              rcases he with (he | he) | he
              · subst he; rfl
              · exact hr3 e he
              · subst he; rfl
            · simp
            · simp
            · simp [received, h4]
        · refine ⟨(resizeReceiveBuffer p p.HasPendingData.2 s).1,
            [Event.HasPendingData] ++ (resizeReceiveBuffer p p.HasPendingData.2 s).2.1, [],
            ?_, hr1, ?_, ?_, ?_, ?_⟩
          · simp [receive, hs, h1, h2, h3, received]
          · intro e he
            simp only [List.mem_append, List.mem_singleton] at he
            rcases he with he | he
            · subst he; rfl
            · exact hr3 e he
          · simp
          · simp
          · simp [received, h3]
    · refine ⟨s, [Event.HasPendingData], [], ?_, SameSession.refl s, ?_, ?_, ?_, ?_⟩
      · simp [receive, hs, h1, received]
      · simp [Event.fromPoll]
      · simp
      · simp
      · simp [received, h1]

theorem respond_ok (s : DeepDriveClientConnection) (hsock : s.m_Socket ≠ none) :
    ∃ s1 evq, respond s = .ok (s1, evq) ∧ s1.m_Socket = s.m_Socket ∧
      s1.m_isStopped = s.m_isStopped ∧ s1.m_isMaster = s.m_isMaster ∧
      s1.m_MessageHandlers = s.m_MessageHandlers ∧
      s1.m_MessageAssembler = s.m_MessageAssembler ∧ s1.m_ResponseQueue = s.m_ResponseQueue.tail ∧
      (∀ e ∈ evq, e.fromQueue = true) ∧
      (s.m_ResponseQueue = [] → evq = []) ∧
      (∀ r rest, s.m_ResponseQueue = some r :: rest →
        evq = [Event.Send (Wire.Message r r.message_size), Event.Free r]) := by
  cases hs : s.m_Socket with
  | none => exact absurd hs hsock
  | some sock =>
    cases hq : s.m_ResponseQueue with
    | nil => exact ⟨s, [], by simp [respond, hq], hs, rfl, rfl, rfl, rfl, by simp [hq], by simp⟩
    | cons x rest =>
      cases x with
      | none =>
        exact ⟨{ s with m_ResponseQueue := rest }, [], by simp [respond, hq], hs, rfl, rfl, rfl,
          rfl, by simp, by simp⟩
      | some r =>
        exact ⟨{ s with m_ResponseQueue := rest },
          [Event.Send (Wire.Message r r.message_size), Event.Free r],
          by simp [respond, hq, hs], hs, rfl, rfl, rfl, rfl, by simp, by simp [Event.fromQueue]⟩

theorem foreignCall_fold (calls : List ForeignCall) (s : DeepDriveClientConnection) :
    (calls.foldl foreignCall s).m_Socket = s.m_Socket ∧
      (calls.foldl foreignCall s).m_isMaster = s.m_isMaster ∧
      (calls.foldl foreignCall s).m_MessageHandlers = s.m_MessageHandlers ∧
      (calls.foldl foreignCall s).m_MessageAssembler = s.m_MessageAssembler ∧
      (s.m_isStopped = true → (calls.foldl foreignCall s).m_isStopped = true) ∧
      (ForeignCall.terminate ∈ calls → (calls.foldl foreignCall s).m_isStopped = true) := by
  induction calls generalizing s with
  | nil => simp
  | cons c rest ih =>
    obtain ⟨i1, i2, i3, i4, i5, i6⟩ := ih (foreignCall s c)
    simp only [List.foldl_cons]
    cases c with
    | terminate =>
      exact ⟨i1, i2, i3, i4, fun _ => i5 rfl, fun _ => i5 rfl⟩
    | enqueueResponse m =>
      cases m with
      | none =>
        exact ⟨i1, i2, i3, i4, i5, fun h => i6 (by simpa using h)⟩
      | some m =>
        exact ⟨i1, i2, i3, i4, i5, fun h => i6 (by simpa using h)⟩

theorem RunIteration_ok (d : Declarations) (p : Platform) (s : DeepDriveClientConnection)
    (hsock : s.m_Socket ≠ none) (hbound : s.m_MessageAssembler.m_HandleMessage = true) :
    ∃ s1 evp evd evq,
      RunIteration d p s
        = .ok (s1, evp ++ (if received p s then [Event.add (chunk p s)] else []) ++ evd ++ evq
            ++ [Event.Sleep (if received p s then 5 else 25)]) ∧
      s1.m_Socket = s.m_Socket ∧ s1.m_MessageHandlers = s.m_MessageHandlers ∧
      s1.m_MessageAssembler.m_HandleMessage = true ∧
      (s.m_isStopped = true → s1.m_isStopped = true) ∧
      (ForeignCall.terminate ∈ p.foreign → s1.m_isStopped = true) ∧
      (s.m_isMaster = true → s1.m_isMaster = true) ∧
      (∀ e ∈ evp, e.fromPoll = true) ∧ (∀ e ∈ evd, e.fromHandler = true) ∧
      (∀ e ∈ evq, e.fromQueue = true) ∧
      (received p s = false → evd = []) ∧
      (received p s = true → ∃ t s2, SameSession s t ∧
        deliver d p (p.add s.m_MessageAssembler.retained (chunk p s)).2 t = .ok (s2, evd)) ∧
      (s.m_ResponseQueue = [] → evq = []) ∧
      (∀ r rest, s.m_ResponseQueue = some r :: rest →
        evq = [Event.Send (Wire.Message r r.message_size), Event.Free r]) := by
  obtain ⟨sA, evp, evd, hrcv, hsess, hep, hed, hidle, hbusy⟩ := receive_ok d p s hsock hbound
  obtain ⟨a1, a2, a3, a4, a5, a6, a7⟩ := hsess
  obtain ⟨sB, evq, hresp, b1, b2, b3, b4, b5, b6, heq, hq0, hq1⟩ :=
    respond_ok sA (by rw [a1]; exact hsock)
  obtain ⟨f1, f2, f3, f4, f5, f6⟩ := foreignCall_fold p.foreign sB
  refine ⟨p.foreign.foldl foreignCall sB, evp, evd, evq, ?_, ?_, ?_, ?_, ?_, f6, ?_, hep, hed,
    heq, hidle, ?_, ?_, ?_⟩
  · simp [RunIteration, hrcv, hresp]
  · rw [f1, b1, a1]
  · rw [f3, b4, a4]
  · rw [f4, b5, a5]; exact hbound
  · intro h; exact f5 (by rw [b2, a2]; exact h)
  · intro h; rw [f2, b3]; exact a7 h
  · intro h
    obtain ⟨t, ht, hd⟩ := hbusy h
    exact ⟨t, sA, ht, hd⟩
  · intro h; exact hq0 (by rw [a3]; exact h)
  · intro r rest h; exact hq1 r rest (by rw [a3]; exact h)

/-! ## Handlers -/

/-- C2. On a connection with an open socket, whatever the request and whatever the privileged
flag was, `registerClient` sends exactly one `RegisterClientResponse`; its `client_id` is the
connection's identifier, `granted_master_role` is true, `server_protocol_version` is 1,
`max_supported_cameras` 8, `max_capture_resolution` 2048, `inactivity_timeout_ms` 1000; the
privileged flag is true afterwards and nothing else of the connection changes. -/
theorem registerClient_response (d : Declarations) (p : Platform) (message : MessageHeader)
    (isMaster : Bool) (s : DeepDriveClientConnection) (hsock : s.m_Socket ≠ none) :
    ∃ response : RegisterClientResponse,
      registerClient d p message isMaster s
          = .ok ({ s with m_isMaster := true },
              [Event.Send (Wire.RegisterClientResponse response)]) ∧
        response.client_id = s.m_ClientId ∧ response.granted_master_role = true ∧
        response.server_protocol_version = 1 ∧ response.max_supported_cameras = 8 ∧
        response.max_capture_resolution = 2048 ∧ response.inactivity_timeout_ms = 1000 := by
  cases hs : s.m_Socket with
  | none => exact absurd hs hsock
  | some sock =>
    cases hsink : p.getSharedMemorySink with
    | none =>
      simp only [registerClient, hs, hsink]
      exact ⟨_, rfl, rfl, rfl, rfl, rfl, rfl, rfl⟩
    | some sink =>
      simp only [registerClient, hs, hsink]
      exact ⟨_, rfl, rfl, rfl, rfl, rfl, rfl, rfl⟩

theorem registerClient_response_witness :
    exampleConnection.m_Socket ≠ none ∧
    ∃ response : RegisterClientResponse,
      registerClient exampleDeclarations examplePlatform exampleRegister false exampleConnection
          = .ok ({ exampleConnection with m_isMaster := true },
              [Event.Send (Wire.RegisterClientResponse response)]) ∧
        response.client_id = exampleConnection.m_ClientId ∧
        response.granted_master_role = true ∧
        response.server_protocol_version = 1 ∧ response.max_supported_cameras = 8 ∧
        response.max_capture_resolution = 2048 ∧ response.inactivity_timeout_ms = 1000 :=
  ⟨by decide, registerClient_response exampleDeclarations examplePlatform exampleRegister false
    exampleConnection (by decide)⟩

/-- C3. With the dispatch table `Init` populates, a message of one of the four forwarded kinds
is handed to the coordinator exactly once, as a duplicate equal to the message, when the
privileged flag is true, and not at all when it is false; either way no other call is made (no
socket write) and the connection, its response queue included, is unchanged. -/
theorem forward_iff_master (d : Declarations) (p : Platform) (s0 s : DeepDriveClientConnection)
    (message : MessageHeader)
    (hT : s.m_MessageHandlers = (Init s0).1.m_MessageHandlers)
    (hid : message.message_id = MessageId.RegisterCaptureCameraRequest ∨
      message.message_id = MessageId.RequestAgentControlRequest ∨
      message.message_id = MessageId.ReleaseAgentControlRequest ∨
      message.message_id = MessageId.SetAgentControlValuesRequest) :
    (s.m_isMaster = true →
      handleClientRequest d p message s = .ok (s, [Event.enqueueMessage message.clone]) ∧
        message.clone = message) ∧
    (s.m_isMaster = false → handleClientRequest d p message s = .ok (s, [])) := by
  have hf := Init_find_forward s0 message.message_id hid
  rw [← hT] at hf
  constructor
  · intro hm
    exact ⟨by simp [handleClientRequest, hf, invoke, forward2Server, hm], rfl⟩
  · intro hm
    simp [handleClientRequest, hf, invoke, forward2Server, hm]

theorem forward_iff_master_witness :
    exampleConnection.m_MessageHandlers = (Init exampleFresh).1.m_MessageHandlers ∧
    (exampleCommand.message_id = MessageId.RegisterCaptureCameraRequest ∨
      exampleCommand.message_id = MessageId.RequestAgentControlRequest ∨
      exampleCommand.message_id = MessageId.ReleaseAgentControlRequest ∨
      exampleCommand.message_id = MessageId.SetAgentControlValuesRequest) ∧
    ((exampleConnection.m_isMaster = true →
      handleClientRequest exampleDeclarations examplePlatform exampleCommand exampleConnection
          = .ok (exampleConnection, [Event.enqueueMessage exampleCommand.clone]) ∧
        exampleCommand.clone = exampleCommand) ∧
    (exampleConnection.m_isMaster = false →
      handleClientRequest exampleDeclarations examplePlatform exampleCommand exampleConnection
        = .ok (exampleConnection, []))) :=
  ⟨rfl, by decide, forward_iff_master exampleDeclarations examplePlatform exampleFresh
    exampleConnection exampleCommand rfl (by decide)⟩

/-- C4. With the dispatch table `Init` populates on a newly constructed connection (whose table
is empty), a message whose identifier is none of the six registered ones runs no handler:
`handleClientRequest` returns without a fault, makes no call at all (no socket write, no call
of the coordinator) and leaves the connection unchanged. -/
theorem handleClientRequest_unknown (d : Declarations) (p : Platform)
    (s0 s : DeepDriveClientConnection) (message : MessageHeader)
    (h0 : s0.m_MessageHandlers = [])
    (hT : s.m_MessageHandlers = (Init s0).1.m_MessageHandlers)
    (h1 : message.message_id ≠ MessageId.RegisterClientRequest)
    (h2 : message.message_id ≠ MessageId.UnregisterClientRequest)
    (h3 : message.message_id ≠ MessageId.RegisterCaptureCameraRequest)
    (h4 : message.message_id ≠ MessageId.RequestAgentControlRequest)
    (h5 : message.message_id ≠ MessageId.ReleaseAgentControlRequest)
    (h6 : message.message_id ≠ MessageId.SetAgentControlValuesRequest) :
    s.m_MessageHandlers.find message.message_id = none ∧
      handleClientRequest d p message s = .ok (s, []) := by
  have hf := Init_find_unknown s0 message.message_id h0 h1 h2 h3 h4 h5 h6
  rw [← hT] at hf
  exact ⟨hf, by simp [handleClientRequest, hf]⟩

theorem handleClientRequest_unknown_witness :
    exampleFresh.m_MessageHandlers = [] ∧
    exampleConnection.m_MessageHandlers = (Init exampleFresh).1.m_MessageHandlers ∧
    exampleUnknown.message_id ≠ MessageId.RegisterClientRequest ∧
    exampleUnknown.message_id ≠ MessageId.UnregisterClientRequest ∧
    exampleUnknown.message_id ≠ MessageId.RegisterCaptureCameraRequest ∧
    exampleUnknown.message_id ≠ MessageId.RequestAgentControlRequest ∧
    exampleUnknown.message_id ≠ MessageId.ReleaseAgentControlRequest ∧
    exampleUnknown.message_id ≠ MessageId.SetAgentControlValuesRequest ∧
    exampleConnection.m_MessageHandlers.find exampleUnknown.message_id = none ∧
    handleClientRequest exampleDeclarations examplePlatform exampleUnknown exampleConnection
      = .ok (exampleConnection, []) :=
  ⟨by decide, rfl, by decide, by decide, by decide, by decide, by decide, by decide,
    handleClientRequest_unknown exampleDeclarations examplePlatform exampleFresh
      exampleConnection exampleUnknown (by decide) rfl (by decide) (by decide) (by decide)
      (by decide) (by decide) (by decide)⟩

/-- C5. In a pass through the loop of `Run` that receives bytes from which the assembler
completes an `UnregisterClientRequest`, while the response queue starts with a response `r`, the
socket writes of the pass are the writes of the handlers, among them the bare
`UnregisterClientResponse`, followed by `r` as the last write; when the unregister request is the
only completed message the writes are exactly the acknowledgement and then `r`. The unregister
handler itself returns the connection unchanged, so it neither enqueues nor dequeues. -/
theorem unregister_ack_precedes_queue (d : Declarations) (p : Platform)
    (s0 s : DeepDriveClientConnection) (u r : MessageHeader) (rest : List (Option MessageHeader))
    (hsock : s.m_Socket ≠ none) (hbound : s.m_MessageAssembler.m_HandleMessage = true)
    (hT : s.m_MessageHandlers = (Init s0).1.m_MessageHandlers)
    (hid : u.message_id = MessageId.UnregisterClientRequest)
    (hrec : received p s = true)
    (hu : u ∈ (p.add s.m_MessageAssembler.retained (chunk p s)).2)
    (hq : s.m_ResponseQueue = some r :: rest) :
    unregisterClient d u s.m_isMaster s
        = .ok (s, [Event.Send (Wire.UnregisterClientResponse d.newUnregisterClientResponse)]) ∧
    ∃ s1 ev handlerSends,
      RunIteration d p s = .ok (s1, ev) ∧
      sends ev = handlerSends ++ [Wire.Message r r.message_size] ∧
      Wire.UnregisterClientResponse d.newUnregisterClientResponse ∈ handlerSends ∧
      ((p.add s.m_MessageAssembler.retained (chunk p s)).2 = [u] →
        handlerSends = [Wire.UnregisterClientResponse d.newUnregisterClientResponse]) := by
  constructor
  · cases hs : s.m_Socket with
    | none => exact absurd hs hsock
    | some sock => simp [unregisterClient, hs]
  · obtain ⟨s1, evp, evd, evq, hrun, -, -, -, -, -, -, hep, -, -, -, hbusy, -, hq1⟩ :=
      RunIteration_ok d p s hsock hbound
    obtain ⟨t, s2, ht, hd⟩ := hbusy hrec
    have hsockt : t.m_Socket ≠ none := by rw [ht.1]; exact hsock
    have hboundt : t.m_MessageAssembler.m_HandleMessage = true := by
      rw [ht.2.2.2.2.1]; exact hbound
    have hTt : t.m_MessageHandlers = (Init s0).1.m_MessageHandlers := by
      rw [ht.2.2.2.1]; exact hT
    refine ⟨s1, _, sends evd, hrun, ?_, ?_, ?_⟩
    · simp [sends_append, sends_fromPoll evp hep, hq1 r rest hq, hrec, sends]
    · exact deliver_unregister_mem d p s0 u hid _ t s2 evd hsockt hboundt hTt hu hd
    · intro hone
      rw [hone] at hd
      have h3 := handleClientRequest_unregister d p s0 t u hsockt hTt hid
      simp [deliver, hboundt, h3] at hd
      rw [← hd.2]
      simp [sends]

theorem unregister_ack_precedes_queue_witness :
    exampleQueued.m_Socket ≠ none ∧
    exampleQueued.m_ResponseQueue = [some exampleQueuedResponse] ∧
    received examplePlatform exampleQueued = true ∧
    ∃ s1 ev handlerSends,
      RunIteration exampleDeclarations examplePlatform exampleQueued = .ok (s1, ev) ∧
      sends ev
        = handlerSends ++ [Wire.Message exampleQueuedResponse exampleQueuedResponse.message_size] ∧
      Wire.UnregisterClientResponse exampleDeclarations.newUnregisterClientResponse
        ∈ handlerSends ∧
      ((examplePlatform.add exampleQueued.m_MessageAssembler.retained
          (chunk examplePlatform exampleQueued)).2 = [exampleUnregister] →
        handlerSends
          = [Wire.UnregisterClientResponse exampleDeclarations.newUnregisterClientResponse]) :=
  ⟨by decide, rfl, by decide,
    (unregister_ack_precedes_queue exampleDeclarations examplePlatform exampleFresh exampleQueued
      exampleUnregister exampleQueuedResponse [] (by decide) (by decide) rfl rfl (by decide)
      (by decide) rfl).2⟩

/-- C9, as the code has it. A pass through the loop of `Run` on a connection with an open socket
and a bound delegate ends with exactly one sleep; it lasts 5 ms if and only if the pass received
bytes and fed them to the assembler (data pending with a count that is not zero, the resize
returned true and `Recv` returned true), and 25 ms in every other case, whether or not a queued
response was dequeued and written. -/
theorem sleep_short_iff_received (d : Declarations) (p : Platform)
    (s : DeepDriveClientConnection) (hsock : s.m_Socket ≠ none)
    (hbound : s.m_MessageAssembler.m_HandleMessage = true) :
    ∃ s1 ev ms, RunIteration d p s = .ok (s1, ev ++ [Event.Sleep ms]) ∧
      (∀ t, Event.Sleep t ∉ ev) ∧
      ((∃ data, Event.add data ∈ ev) ↔ received p s = true) ∧
      (ms = 5 ↔ received p s = true) ∧ (ms = 25 ↔ received p s = false) := by
  obtain ⟨s1, evp, evd, evq, hrun, -, -, -, -, -, -, hep, hed, heq, hidle, -, -, -⟩ :=
    RunIteration_ok d p s hsock hbound
  refine ⟨s1, _, _, hrun, ?_, ?_, ?_, ?_⟩
  · intro t ht
    simp only [List.mem_append] at ht
    rcases ht with ((ht | ht) | ht) | ht
    · simpa [Event.fromPoll] using hep _ ht
    · split at ht <;> simp at ht
    · simpa [Event.fromHandler] using hed _ ht
    · simpa [Event.fromQueue] using heq _ ht
  · constructor
    · rintro ⟨data, hmem⟩
      simp only [List.mem_append] at hmem
      rcases hmem with ((ht | ht) | ht) | ht
      · simpa [Event.fromPoll] using hep _ ht
      · by_contra hne
        simp [hne] at ht
      · simpa [Event.fromHandler] using hed _ ht
      · simpa [Event.fromQueue] using heq _ ht
    · intro hrec
      exact ⟨chunk p s, by simp [hrec]⟩
  · cases received p s <;> simp
  · cases received p s <;> simp

theorem sleep_short_iff_received_witness :
    exampleQueued.m_Socket ≠ none ∧
    ∃ s1 ev ms, RunIteration exampleDeclarations exampleIdlePlatform exampleQueued
        = .ok (s1, ev ++ [Event.Sleep ms]) ∧
      (∀ t, Event.Sleep t ∉ ev) ∧
      ((∃ data, Event.add data ∈ ev) ↔ received exampleIdlePlatform exampleQueued = true) ∧
      (ms = 5 ↔ received exampleIdlePlatform exampleQueued = true) ∧
      (ms = 25 ↔ received exampleIdlePlatform exampleQueued = false) :=
  ⟨by decide, sleep_short_iff_received exampleDeclarations exampleIdlePlatform exampleQueued
    (by decide) (by decide)⟩

/-- C9, counterexample. With no data pending and one response in the queue, the pass dequeues
the response and writes it to the socket, and still sleeps the long 25 ms. -/
theorem sleep_long_after_send :
    RunIteration exampleDeclarations exampleIdlePlatform exampleQueued
      = .ok (exampleConnection,
          [Event.HasPendingData,
            Event.Send (Wire.Message exampleQueuedResponse exampleQueuedResponse.message_size),
            Event.Free exampleQueuedResponse, Event.Sleep 25]) := by
  rfl


theorem handleClientRequest_stopped (d : Declarations) (p : Platform) (message : MessageHeader)
    (s s1 : DeepDriveClientConnection) (ev : List Event)
    (h : handleClientRequest d p message s = .ok (s1, ev)) :
    s1.m_isStopped = s.m_isStopped := by
  unfold handleClientRequest at h
  cases hf : s.m_MessageHandlers.find message.message_id with
  | none =>
    simp [hf] at h
    rw [← h.1]
  | some hd =>
    simp only [hf] at h
    cases hs : s.m_Socket with
    | some sock =>
      obtain ⟨t, e, ht, hsess, -, -⟩ := invoke_ok d p hd message s.m_isMaster s (by simp [hs])
      rw [ht] at h
      injection h with h
      rw [← (Prod.mk.inj h).1]
      exact hsess.2.1
    | none =>
      cases hd with
      | registerClient => simp [invoke, registerClient, hs] at h
      | unregisterClient => simp [invoke, unregisterClient, hs] at h
      | forward2Server =>
        simp only [invoke, forward2Server] at h
        split at h <;> (injection h with h; rw [← (Prod.mk.inj h).1])

theorem deliver_stopped (d : Declarations) (p : Platform) (msgs : List MessageHeader)
    (s s1 : DeepDriveClientConnection) (ev : List Event)
    (h : deliver d p msgs s = .ok (s1, ev)) : s1.m_isStopped = s.m_isStopped := by
  induction msgs generalizing s s1 ev with
  | nil =>
    simp [deliver] at h
    rw [← h.1]
  | cons m rest ih =>
    simp only [deliver] at h
    split at h
    · cases h1 : handleClientRequest d p m s with
      | error f => simp [h1] at h
      | ok r1 =>
        obtain ⟨t1, ev1⟩ := r1
        simp only [h1] at h
        cases h2 : deliver d p rest t1 with
        | error f => simp [h2] at h
        | ok r2 =>
          obtain ⟨t2, ev2⟩ := r2
          simp only [h2] at h
          injection h with h
          rw [← (Prod.mk.inj h).1, ih t1 t2 ev2 h2]
          exact handleClientRequest_stopped d p m s t1 ev1 h1
    · cases h

theorem receive_stopped (d : Declarations) (p : Platform) (s s1 : DeepDriveClientConnection)
    (ev : List Event) (ms : Nat) (h : receive d p s = .ok (s1, ev, ms)) :
    s1.m_isStopped = s.m_isStopped := by
  have hr := (resizeReceiveBuffer_session p p.HasPendingData.2 s).1.2.1
  unfold receive at h
  cases hs : s.m_Socket with
  | none => simp [hs] at h
  | some sock =>
    simp only [hs] at h
    split at h
    · split at h
      · split at h
        · split at h
          · split at h
            · cases h
            · rename_i s2 ev2 hd
              injection h with h
              rw [← (Prod.mk.inj h).1, deliver_stopped d p _ _ s2 ev2 hd]
              exact hr
          · injection h with h
            rw [← (Prod.mk.inj h).1]; exact hr
        · injection h with h
          rw [← (Prod.mk.inj h).1]; exact hr
      · injection h with h
        rw [← (Prod.mk.inj h).1]
    · injection h with h
      rw [← (Prod.mk.inj h).1]

theorem respond_stopped (s s1 : DeepDriveClientConnection) (ev : List Event)
    (h : respond s = .ok (s1, ev)) : s1.m_isStopped = s.m_isStopped := by
  unfold respond at h
  split at h
  · injection h with h
    rw [← (Prod.mk.inj h).1]
  · injection h with h
    rw [← (Prod.mk.inj h).1]
  · split at h
    · cases h
    · injection h with h
      rw [← (Prod.mk.inj h).1]

theorem RunIteration_stopped (d : Declarations) (p : Platform)
    (s s1 : DeepDriveClientConnection) (ev : List Event)
    (h : RunIteration d p s = .ok (s1, ev)) (hstop : s.m_isStopped = true) :
    s1.m_isStopped = true := by
  unfold RunIteration at h
  cases h1 : receive d p s with
  | error f => simp [h1] at h
  | ok r1 =>
    obtain ⟨t1, ev1, ms⟩ := r1
    simp only [h1] at h
    cases h2 : respond t1 with
    | error f => simp [h2] at h
    | ok r2 =>
      obtain ⟨t2, ev2⟩ := r2
      simp only [h2] at h
      injection h with h
      rw [← (Prod.mk.inj h).1]
      apply (foreignCall_fold p.foreign t2).2.2.2.2.1
      rw [respond_stopped t1 t2 ev2 h2, receive_stopped d p s t1 ev1 ms h1]
      exact hstop

/-! ## The loop and the life cycle -/

theorem Run_stopped (d : Declarations) (script : List Platform) (s : DeepDriveClientConnection)
    (h : s.m_isStopped = true) :
    Run d script s = .ok ((shutdown s).1, (shutdown s).2, 0) := by
  cases script <;> simp [Run, h]

theorem shutdown_open (s : DeepDriveClientConnection) (hsock : s.m_Socket ≠ none) :
    shutdown s = ({ s with m_Socket := none }, [Event.Close, Event.deleteSocket]) := by
  cases hs : s.m_Socket with
  | none => exact absurd hs hsock
  | some sock => simp [shutdown, hs]

theorem shutdown_null (s : DeepDriveClientConnection) (hsock : s.m_Socket = none) :
    shutdown s = (s, []) := by
  simp [shutdown, hsock]

theorem shutdown_stopped (s : DeepDriveClientConnection) :
    (shutdown s).1.m_isStopped = s.m_isStopped := by
  unfold shutdown
  split <;> rfl

theorem lifecycle_null (calls : List LifecycleCall) (s : DeepDriveClientConnection)
    (hsock : s.m_Socket = none) : (lifecycle calls s).2 = [] := by
  induction calls generalizing s with
  | nil => rfl
  | cons c rest ih =>
    cases c with
    | terminate => exact ih (terminate s) hsock
    | shutdown =>
      have h := shutdown_null s hsock
      simp [lifecycle, h, ih s hsock]

theorem lifecycle_closes (calls : List LifecycleCall) (s : DeepDriveClientConnection) :
    (s.m_Socket ≠ none → LifecycleCall.shutdown ∈ calls → closes (lifecycle calls s).2 = 1) ∧
      (LifecycleCall.shutdown ∉ calls → (lifecycle calls s).2 = []) := by
  induction calls generalizing s with
  | nil => simp [lifecycle]
  | cons c rest ih =>
    cases c with
    | terminate =>
      constructor
      · intro hsock hmem
        exact (ih (terminate s)).1 hsock (by simpa using hmem)
      · intro hmem
        exact (ih (terminate s)).2 (by simpa using hmem)
    | shutdown =>
      constructor
      · intro hsock _
        have h := shutdown_open s hsock
        have hn := lifecycle_null rest { s with m_Socket := none } rfl
        simp [lifecycle, h, hn, closes]
      · intro hmem
        simp at hmem

theorem lifecycle_stopped (calls : List LifecycleCall) (s : DeepDriveClientConnection) :
    (s.m_isStopped = true → (lifecycle calls s).1.m_isStopped = true) ∧
      (LifecycleCall.terminate ∈ calls → (lifecycle calls s).1.m_isStopped = true) := by
  induction calls generalizing s with
  | nil => simp [lifecycle]
  | cons c rest ih =>
    cases c with
    | terminate =>
      exact ⟨fun _ => (ih (terminate s)).1 rfl, fun _ => (ih (terminate s)).1 rfl⟩
    | shutdown =>
      constructor
      · intro h
        exact (ih (shutdown s).1).1 (by rw [shutdown_stopped]; exact h)
      · intro hmem
        exact (ih (shutdown s).1).2 (by simpa using hmem)

theorem iterate_terminate (n : Nat) (s : DeepDriveClientConnection) (hn : 1 ≤ n) :
    (Nat.iterate terminate n s).m_isStopped = true := by
  induction n generalizing s with
  | zero => omega
  | succ k ih =>
    rw [Function.iterate_succ_apply]
    cases k with
    | zero => rfl
    | succ j => exact ih (terminate s) (by omega)

theorem RunIteration_closes (d : Declarations) (p : Platform) (s : DeepDriveClientConnection)
    (hsock : s.m_Socket ≠ none) (hbound : s.m_MessageAssembler.m_HandleMessage = true) :
    ∃ s1 ev, RunIteration d p s = .ok (s1, ev) ∧ closes ev = 0 ∧ s1.m_Socket ≠ none ∧
      s1.m_MessageAssembler.m_HandleMessage = true ∧
      (ForeignCall.terminate ∈ p.foreign → s1.m_isStopped = true) := by
  obtain ⟨s1, evp, evd, evq, hrun, h1, -, h3, -, h5, -, hep, hed, heq, -, -, -, -⟩ :=
    RunIteration_ok d p s hsock hbound
  refine ⟨s1, _, hrun, ?_, by rw [h1]; exact hsock, h3, h5⟩
  apply closes_of_not_mem
  intro ht
  simp only [List.mem_append] at ht
  rcases ht with (((ht | ht) | ht) | ht) | ht
  · simpa [Event.fromPoll] using hep _ ht
  · split at ht <;> simp at ht
  · simpa [Event.fromHandler] using hed _ ht
  · simpa [Event.fromQueue] using heq _ ht
  · simp at ht

theorem Run_closes_once (d : Declarations) (script : List Platform)
    (s s2 : DeepDriveClientConnection) (ev : List Event) (code : Nat)
    (hsock : s.m_Socket ≠ none) (hbound : s.m_MessageAssembler.m_HandleMessage = true)
    (hrun : Run d script s = .ok (s2, ev, code)) :
    closes ev = 1 ∧ s2.m_Socket = none ∧ code = 0 := by
  induction script generalizing s s2 ev with
  | nil =>
    cases hst : s.m_isStopped with
    | false => simp [Run, hst] at hrun
    | true =>
      rw [Run_stopped d [] s hst, shutdown_open s hsock] at hrun
      injection hrun with hrun
      obtain ⟨e1, e2⟩ := Prod.mk.inj hrun
      obtain ⟨e2, e3⟩ := Prod.mk.inj e2
      subst e1 e2 e3
      simp [closes]
  | cons p rest ih =>
    cases hst : s.m_isStopped with
    | true =>
      rw [Run_stopped d (p :: rest) s hst, shutdown_open s hsock] at hrun
      injection hrun with hrun
      obtain ⟨e1, e2⟩ := Prod.mk.inj hrun
      obtain ⟨e2, e3⟩ := Prod.mk.inj e2
      subst e1 e2 e3
      simp [closes]
    | false =>
      obtain ⟨s1, ev1, hit, hc, hsock1, hbound1, -⟩ := RunIteration_closes d p s hsock hbound
      cases hrest : Run d rest s1 with
      | error f => simp [Run, hst, hit, hrest] at hrun
      | ok r =>
        obtain ⟨t2, ev2, code2⟩ := r
        simp [Run, hst, hit, hrest] at hrun
        obtain ⟨e1, e2, e3⟩ := hrun
        subst e1 e2 e3
        obtain ⟨i1, i2, i3⟩ := ih s1 t2 ev2 hsock1 hbound1 hrest
        exact ⟨by rw [closes_append, hc, i1], i2, i3⟩

/-- C8. The stop flag is monotonic and the socket is closed once. Any number `n ≥ 1` of
`terminate` calls leaves the flag true; once it is true, `terminate`, `Stop`, `Init`, `shutdown`,
`enqueueResponse`, `resizeReceiveBuffer`, `handleClientRequest`, a pass through the loop and every
sequence of `terminate` and `shutdown` calls leave it true. With the flag true `Run` makes no
pass: it performs the calls of `shutdown` only and returns 0; when the flag is set by a
`terminate` that arrives during a pass, `Run` finishes that pass and then shuts down. `shutdown`
on an open socket closes it and nulls the handle, on a null handle it does nothing. A sequence of
`terminate` and `shutdown` calls on an open socket closes it once if it holds a `shutdown` and
makes no call otherwise; whenever `Run` returns, the events of `Run` followed by those of any
such sequence hold exactly one close. -/
theorem stop_flag_monotone_close_once (d : Declarations) (s : DeepDriveClientConnection) :
    (∀ n, 1 ≤ n → (Nat.iterate terminate n s).m_isStopped = true) ∧
    (s.m_isStopped = true →
      (terminate s).m_isStopped = true ∧ (Stop s).m_isStopped = true ∧
      (Init s).1.m_isStopped = true ∧ (shutdown s).1.m_isStopped = true ∧
      (∀ m, (enqueueResponse m s).m_isStopped = true) ∧
      (∀ p n, (resizeReceiveBuffer p n s).1.m_isStopped = true) ∧
      (∀ p m s1 ev, handleClientRequest d p m s = .ok (s1, ev) → s1.m_isStopped = true) ∧
      (∀ p s1 ev, RunIteration d p s = .ok (s1, ev) → s1.m_isStopped = true) ∧
      (∀ calls, (lifecycle calls s).1.m_isStopped = true)) ∧
    (s.m_isStopped = true →
      ∀ script, Run d script s = .ok ((shutdown s).1, (shutdown s).2, 0)) ∧
    (s.m_isStopped = false → s.m_Socket ≠ none → s.m_MessageAssembler.m_HandleMessage = true →
      ∀ p rest, ForeignCall.terminate ∈ p.foreign →
        ∃ s1 ev, RunIteration d p s = .ok (s1, ev) ∧ s1.m_isStopped = true ∧
          Run d (p :: rest) s
            = .ok ({ s1 with m_Socket := none }, ev ++ [Event.Close, Event.deleteSocket], 0)) ∧
    (s.m_Socket ≠ none →
      shutdown s = ({ s with m_Socket := none }, [Event.Close, Event.deleteSocket])) ∧
    (s.m_Socket = none → shutdown s = (s, [])) ∧
    (∀ calls,
      (s.m_Socket ≠ none → LifecycleCall.shutdown ∈ calls → closes (lifecycle calls s).2 = 1) ∧
      (LifecycleCall.shutdown ∉ calls → (lifecycle calls s).2 = []) ∧
      (s.m_Socket = none → (lifecycle calls s).2 = [])) ∧
    (s.m_Socket ≠ none → s.m_MessageAssembler.m_HandleMessage = true →
      ∀ script s2 ev code, Run d script s = .ok (s2, ev, code) →
        ∀ calls, closes (ev ++ (lifecycle calls s2).2) = 1) := by
  refine ⟨fun n hn => iterate_terminate n s hn, ?_, fun h script => Run_stopped d script s h, ?_,
    shutdown_open s, shutdown_null s, ?_, ?_⟩
  · intro h
    refine ⟨rfl, h, h, by rw [shutdown_stopped]; exact h, ?_, ?_, ?_, ?_, ?_⟩
    · intro m
      cases m <;> exact h
    · intro p n
      rw [(resizeReceiveBuffer_session p n s).1.2.1]; exact h
    · intro p m s1 ev hh
      rw [handleClientRequest_stopped d p m s s1 ev hh]; exact h
    · intro p s1 ev hh
      exact RunIteration_stopped d p s s1 ev hh h
    · intro calls
      exact (lifecycle_stopped calls s).1 h
  · intro hst hsock hbound p rest hmem
    obtain ⟨s1, ev, hit, -, hsock1, -, hterm⟩ := RunIteration_closes d p s hsock hbound
    have h1 := hterm hmem
    refine ⟨s1, ev, hit, h1, ?_⟩
    have h2 := Run_stopped d rest s1 h1
    rw [shutdown_open s1 hsock1] at h2
    simp [Run, hst, hit, h2]
  · intro calls
    exact ⟨(lifecycle_closes calls s).1, (lifecycle_closes calls s).2, lifecycle_null calls s⟩
  · intro hsock hbound script s2 ev code hrun calls
    obtain ⟨h1, h2, -⟩ := Run_closes_once d script s s2 ev code hsock hbound hrun
    rw [closes_append, h1, lifecycle_null calls s2 h2]
    rfl

theorem stop_flag_monotone_close_once_witness :
    (Nat.iterate terminate 3 exampleConnection).m_isStopped = true ∧
    ∃ s1 ev,
      RunIteration exampleDeclarations exampleTerminatingPlatform exampleConnection
        = .ok (s1, ev) ∧ s1.m_isStopped = true ∧
      Run exampleDeclarations [exampleTerminatingPlatform, examplePlatform] exampleConnection
        = .ok ({ s1 with m_Socket := none }, ev ++ [Event.Close, Event.deleteSocket], 0) :=
  ⟨(stop_flag_monotone_close_once exampleDeclarations exampleConnection).1 3 (by decide),
    (stop_flag_monotone_close_once exampleDeclarations exampleConnection).2.2.2.1 rfl
      (by decide) rfl exampleTerminatingPlatform [examplePlatform] (by decide)⟩

/-- C6. The privileged flag is sticky. On a connection with an open socket: if the flag is true,
`handleClientRequest` returns for every message and the flag is true afterwards; with the
dispatch table `Init` populates, an `UnregisterClientRequest` is answered with the bare
acknowledgement and leaves the whole connection (privileged flag, stop flag and socket handle
included) unchanged; and after a registration followed by an unregistration a forwarded command
is still handed to the coordinator. -/
theorem master_role_sticky (d : Declarations) (p : Platform) (s : DeepDriveClientConnection)
    (hsock : s.m_Socket ≠ none) :
    (s.m_isMaster = true → ∀ message, ∃ s1 ev,
      handleClientRequest d p message s = .ok (s1, ev) ∧ s1.m_isMaster = true) ∧
    (∀ s0 register unregister command,
      s.m_MessageHandlers = (Init s0).1.m_MessageHandlers →
      register.message_id = MessageId.RegisterClientRequest →
      unregister.message_id = MessageId.UnregisterClientRequest →
      (command.message_id = MessageId.RegisterCaptureCameraRequest ∨
        command.message_id = MessageId.RequestAgentControlRequest ∨
        command.message_id = MessageId.ReleaseAgentControlRequest ∨
        command.message_id = MessageId.SetAgentControlValuesRequest) →
      handleClientRequest d p unregister s
        = .ok (s, [Event.Send (Wire.UnregisterClientResponse d.newUnregisterClientResponse)]) ∧
      ∃ s1 ev1,
        handleClientRequest d p register s = .ok (s1, ev1) ∧ s1.m_isMaster = true ∧
        handleClientRequest d p unregister s1
          = .ok (s1, [Event.Send (Wire.UnregisterClientResponse d.newUnregisterClientResponse)]) ∧
        handleClientRequest d p command s1
          = .ok (s1, [Event.enqueueMessage command.clone])) := by
  constructor
  · intro hm message
    obtain ⟨s1, ev, h, hsess, -, -⟩ := handleClientRequest_ok d p message s hsock
    exact ⟨s1, ev, h, hsess.2.2.2.2.2.2 hm⟩
  · intro s0 register unregister command hT hr hu hc
    refine ⟨handleClientRequest_unregister d p s0 s unregister hsock hT hu, ?_⟩
    obtain ⟨r, hreg⟩ := registerClient_ok d p register s.m_isMaster s hsock
    have hf := Init_find_register s0
    rw [← hT, ← hr] at hf
    refine ⟨{ s with m_isMaster := true }, [Event.Send (Wire.RegisterClientResponse r)], ?_, rfl,
      ?_, ?_⟩
    · simp only [handleClientRequest, hf, invoke, hreg]
    · exact handleClientRequest_unregister d p s0 _ unregister hsock hT hu
    · have hfc := Init_find_forward s0 command.message_id hc
      rw [← hT] at hfc
      simp [handleClientRequest, hfc, invoke, forward2Server]

theorem master_role_sticky_witness :
    exampleConnection.m_Socket ≠ none ∧
    (∃ s1 ev1,
      handleClientRequest exampleDeclarations examplePlatform exampleRegister exampleConnection
        = .ok (s1, ev1) ∧ s1.m_isMaster = true ∧
      handleClientRequest exampleDeclarations examplePlatform exampleUnregister s1
        = .ok (s1, [Event.Send
            (Wire.UnregisterClientResponse exampleDeclarations.newUnregisterClientResponse)]) ∧
      handleClientRequest exampleDeclarations examplePlatform exampleCommand s1
        = .ok (s1, [Event.enqueueMessage exampleCommand.clone])) :=
  ⟨by decide,
    ((master_role_sticky exampleDeclarations examplePlatform exampleConnection (by decide)).2
      exampleFresh exampleRegister exampleUnregister exampleCommand rfl rfl rfl
      (by decide)).2⟩

/-! ## The receive buffer -/

theorem resizeReceiveBuffer_enough (q : Platform) (minSize : Nat)
    (t : DeepDriveClientConnection) (h : ¬ minSize > t.m_curReceiveBufferSize) :
    resizeReceiveBuffer q minSize t = (t, [], t.m_ReceiveBuffer.isSome) := by
  simp [resizeReceiveBuffer, h]

/-- C1, failing input. A request of 4000000000 bytes on a connection whose buffer holds 81920:
`minSize + minSize / 4` is 5000000000, which leaves the `uint32` range, so the recorded capacity
becomes 705032704, less than the request; a second call with the same request finds the request
still larger than the capacity and replaces the buffer again. -/
theorem resizeReceiveBuffer_wraps :
    exampleConnection.m_curReceiveBufferSize = 81920 ∧
    (resizeReceiveBuffer examplePlatform 4000000000 exampleConnection).1.m_curReceiveBufferSize
      = 705032704 ∧
    (resizeReceiveBuffer examplePlatform 4000000000 exampleConnection).2.2 = true ∧
    (resizeReceiveBuffer examplePlatform 4000000000
      (resizeReceiveBuffer examplePlatform 4000000000 exampleConnection).1).2.1
      = [Event.deleteBuffer (some 705032704), Event.Malloc 705032704] := by
  decide

/-- Where `minSize + minSize / 4` stays inside the `uint32` range, the capacity recorded after
`resizeReceiveBuffer minSize` is at least `minSize` and not below the capacity before, and a
further call with the same or a smaller request changes nothing and makes no call. -/
theorem resizeReceiveBuffer_grows (p q : Platform) (minSize : Nat)
    (s : DeepDriveClientConnection) (hrange : minSize + minSize / 4 < 2 ^ 32) :
    minSize ≤ (resizeReceiveBuffer p minSize s).1.m_curReceiveBufferSize ∧
    s.m_curReceiveBufferSize ≤ (resizeReceiveBuffer p minSize s).1.m_curReceiveBufferSize ∧
    ∀ smaller, smaller ≤ minSize →
      resizeReceiveBuffer q smaller (resizeReceiveBuffer p minSize s).1
        = ((resizeReceiveBuffer p minSize s).1, [],
            (resizeReceiveBuffer p minSize s).1.m_ReceiveBuffer.isSome) := by
  have hcap : minSize ≤ (resizeReceiveBuffer p minSize s).1.m_curReceiveBufferSize := by
    unfold resizeReceiveBuffer
    split
    · simp only [Nat.mod_eq_of_lt hrange]; omega
    · simp only; omega
  refine ⟨hcap, ?_, ?_⟩
  · unfold resizeReceiveBuffer
    split
    · simp only [Nat.mod_eq_of_lt hrange]; omega
    · exact Nat.le_refl _
  · intro smaller hle
    have hnot : ¬ smaller > (resizeReceiveBuffer p minSize s).1.m_curReceiveBufferSize := by omega
    exact resizeReceiveBuffer_enough q smaller _ hnot

theorem resizeReceiveBuffer_grows_witness :
    100000 + 100000 / 4 < 2 ^ 32 ∧
    100000 ≤ (resizeReceiveBuffer examplePlatform 100000 exampleConnection).1.m_curReceiveBufferSize :=
  ⟨by decide, (resizeReceiveBuffer_grows examplePlatform examplePlatform 100000 exampleConnection
    (by decide)).1⟩

/-- A resize whose allocation fails records the new size all the same, so a later call with a
request up to that size makes no allocation and returns false, whatever the allocator would
answer then. -/
theorem failed_resize_not_retried (p q : Platform) (minSize later : Nat)
    (s : DeepDriveClientConnection) (hgt : minSize > s.m_curReceiveBufferSize)
    (hfail : p.Malloc ((minSize + minSize / 4) % 2 ^ 32) = none)
    (hle : later ≤ (minSize + minSize / 4) % 2 ^ 32) :
    (resizeReceiveBuffer p minSize s).2.2 = false ∧
    resizeReceiveBuffer q later (resizeReceiveBuffer p minSize s).1
      = ((resizeReceiveBuffer p minSize s).1, [], false) := by
  have h1 : resizeReceiveBuffer p minSize s
      = ({ s with m_ReceiveBuffer := none,
                  m_curReceiveBufferSize := (minSize + minSize / 4) % 2 ^ 32 },
          [Event.deleteBuffer s.m_ReceiveBuffer, Event.Malloc ((minSize + minSize / 4) % 2 ^ 32)],
          false) := by
    unfold resizeReceiveBuffer
    rw [if_pos hgt]
    simp only [hfail]
    rfl
  rw [h1]
  refine ⟨rfl, ?_⟩
  have hnot : ¬ later > (minSize + minSize / 4) % 2 ^ 32 := by omega
  exact resizeReceiveBuffer_enough q later _ hnot

theorem failed_resize_not_retried_witness :
    (resizeReceiveBuffer exampleFailingPlatform 100000 exampleConnection).2.2 = false ∧
    resizeReceiveBuffer exampleRetryPlatform 100000
        (resizeReceiveBuffer exampleFailingPlatform 100000 exampleConnection).1
      = ((resizeReceiveBuffer exampleFailingPlatform 100000 exampleConnection).1, [], false) :=
  failed_resize_not_retried exampleFailingPlatform exampleRetryPlatform 100000 100000
    exampleConnection (by decide) rfl (by decide)

/-- A pass in which data is pending and the resize returns false calls neither `Recv` nor the
assembler, hands no message to a handler and sleeps 25 ms. -/
theorem failed_resize_skips_receive (d : Declarations) (p : Platform)
    (s : DeepDriveClientConnection) (hsock : s.m_Socket ≠ none)
    (hpend : p.HasPendingData.1 = true) (hsize : p.HasPendingData.2 ≠ 0)
    (hfail : (resizeReceiveBuffer p p.HasPendingData.2 s).2.2 = false) :
    receive d p s
        = .ok ((resizeReceiveBuffer p p.HasPendingData.2 s).1,
            [Event.HasPendingData] ++ (resizeReceiveBuffer p p.HasPendingData.2 s).2.1, 25) ∧
    (∀ n, Event.Recv n ∉ (resizeReceiveBuffer p p.HasPendingData.2 s).2.1) ∧
    (∀ data, Event.add data ∉ (resizeReceiveBuffer p p.HasPendingData.2 s).2.1) ∧
    ∃ s1 evq, RunIteration d p s
        = .ok (s1, [Event.HasPendingData] ++ (resizeReceiveBuffer p p.HasPendingData.2 s).2.1
            ++ evq ++ [Event.Sleep 25]) ∧
      ∀ e ∈ evq, e.fromQueue = true := by
  have hrcv : receive d p s
        = .ok ((resizeReceiveBuffer p p.HasPendingData.2 s).1,
            [Event.HasPendingData] ++ (resizeReceiveBuffer p p.HasPendingData.2 s).2.1, 25) := by
    cases hs : s.m_Socket with
    | none => exact absurd hs hsock
    | some sock => simp [receive, hs, hpend, hsize, hfail]
  have hsess := (resizeReceiveBuffer_session p p.HasPendingData.2 s).1
  obtain ⟨s1, evq, hresp, -, -, -, -, -, -, heq, -, -⟩ :=
    respond_ok (resizeReceiveBuffer p p.HasPendingData.2 s).1 (by rw [hsess.1]; exact hsock)
  refine ⟨hrcv, ?_, ?_, p.foreign.foldl foreignCall s1, evq, ?_, heq⟩
  · intro n
    unfold resizeReceiveBuffer
    split <;> simp
  · intro data
    unfold resizeReceiveBuffer
    split <;> simp
  · simp [RunIteration, hrcv, hresp]

theorem failed_resize_skips_receive_witness :
    exampleConnection.m_Socket ≠ none ∧
    receive exampleDeclarations exampleFailingPlatform exampleConnection
      = .ok ((resizeReceiveBuffer exampleFailingPlatform 100000 exampleConnection).1,
          [Event.HasPendingData]
            ++ (resizeReceiveBuffer exampleFailingPlatform 100000 exampleConnection).2.1, 25) :=
  ⟨by decide, (failed_resize_skips_receive exampleDeclarations exampleFailingPlatform
    exampleConnection (by decide) rfl (by decide) rfl).1⟩

/-- C10, failing input. 100000 bytes are pending on a connection whose buffer holds 81920. In the
first pass the allocator fails: the pass deletes the old buffer, calls `Malloc 125000`, makes no
`Recv` call and feeds nothing to the assembler, and leaves the buffer null with 125000 recorded
as its size. In the next pass the same 100000 bytes are pending and the allocator would succeed,
but the pass makes no `Malloc` call and no `Recv` call: the resize is not tried again. -/
theorem resize_failure_is_permanent :
    RunIteration exampleDeclarations exampleFailingPlatform exampleConnection
      = .ok ({ exampleConnection with m_ReceiveBuffer := none, m_curReceiveBufferSize := 125000 },
          [Event.HasPendingData, Event.deleteBuffer (some 81920), Event.Malloc 125000,
            Event.Sleep 25]) ∧
    exampleRetryPlatform.Malloc 125000 = some 125000 ∧
    RunIteration exampleDeclarations exampleRetryPlatform
        { exampleConnection with m_ReceiveBuffer := none, m_curReceiveBufferSize := 125000 }
      = .ok ({ exampleConnection with m_ReceiveBuffer := none, m_curReceiveBufferSize := 125000 },
          [Event.HasPendingData, Event.Sleep 25]) := by
  exact ⟨rfl, rfl, rfl⟩

/-! ## The shared-memory name -/

theorem strncpy_eq (src : List Nat) (count : Nat) :
    strncpy src count
      = (List.range count).map
          (fun i => (i, (src.takeWhile (fun b => b ≠ 0)).getD i 0)) := by
  have key : ∀ (l : List Nat) (i : Nat),
      (if i < (l.takeWhile (fun b => b ≠ 0)).length then l.getD i 0 else 0)
        = (l.takeWhile (fun b => b ≠ 0)).getD i 0 := by
    intro l
    induction l with
    | nil => intro i; simp
    | cons a t ih =>
      intro i
      by_cases ha : a = 0
      · simp [List.takeWhile_cons, ha]
      · cases i with
        | zero => simp [List.takeWhile_cons, ha]
        | succ j =>
          have := ih j
          simp [List.takeWhile_cons, ha] at this ⊢
          exact this
  unfold strncpy strlen
  apply List.map_congr_left
  intro i _
  rw [key src i]

theorem applyStores_range (g : Nat → Nat) (n : Nat) (field : List Nat)
    (hn : n ≤ field.length) :
    applyStores field ((List.range n).map (fun i => (i, g i)))
      = (List.range n).map g ++ field.drop n := by
  induction n with
  | zero => simp [applyStores]
  | succ k ih =>
    have hk : k < field.length := by omega
    have h := ih (by omega)
    unfold applyStores at h ⊢
    rw [List.range_succ, List.map_append, List.foldl_append, h]
    simp only [List.map_cons, List.map_nil, List.foldl_cons, List.foldl_nil]
    have hlen : (List.map g (List.range k)).length = k := by simp
    rw [List.set_append_right _ _ (by simp), List.drop_eq_getElem_cons hk, hlen, Nat.sub_self,
      List.set_cons_zero, List.map_append, List.append_assoc]
    rfl

theorem cstr_of_stores (c : List Nat) (hc : ∀ x ∈ c, x ≠ 0) (n : Nat) (r : List Nat) :
    ((List.range n).map (fun i => c.getD i 0) ++ 0 :: r).takeWhile (fun b => b ≠ 0)
      = c.take n := by
  induction n generalizing c with
  | zero => simp
  | succ k ih =>
    cases c with
    | nil =>
      rw [List.range_succ_eq_map]
      simp
    | cons a t =>
      have ha : a ≠ 0 := hc a (List.mem_cons_self _ _)
      have ht := ih t (fun x hx => hc x (List.mem_cons_of_mem _ hx))
      rw [List.range_succ_eq_map]
      simp only [List.map_cons, List.map_map, List.cons_append, List.getD_cons_zero,
        List.take_succ_cons]
      rw [List.takeWhile_cons]
      simp only [ha, ne_eq, not_false_eq_true, decide_True, if_true]
      congr 1

theorem shared_memory_name_field (d : Declarations) (name field : List Nat)
    (hN : 1 ≤ d.SharedMemNameSize) (hfield : d.SharedMemNameSize ≤ field.length) :
    applyStores field (sharedMemoryNameStores d name)
      = (List.range (d.SharedMemNameSize - 1)).map
            (fun i => (name.takeWhile (fun b => b ≠ 0)).getD i 0)
          ++ 0 :: field.drop d.SharedMemNameSize := by
  have hk : d.SharedMemNameSize - 1 < field.length := by omega
  have h := applyStores_range (fun i => (name.takeWhile (fun b => b ≠ 0)).getD i 0)
    (d.SharedMemNameSize - 1) field (by omega)
  unfold sharedMemoryNameStores
  rw [strncpy_eq]
  unfold applyStores at h ⊢
  rw [List.foldl_append, h]
  simp only [List.foldl_cons, List.foldl_nil]
  have hlen : (List.map (fun i => (name.takeWhile (fun b => b ≠ 0)).getD i 0)
      (List.range (d.SharedMemNameSize - 1))).length = d.SharedMemNameSize - 1 := by simp
  have hsucc : d.SharedMemNameSize - 1 + 1 = d.SharedMemNameSize := by omega
  rw [List.set_append_right _ _ (by simp), List.drop_eq_getElem_cons hk, hlen, Nat.sub_self,
    List.set_cons_zero, hsucc]

/-- C7. For a name of any length and a field of `SharedMemNameSize = N ≥ 1` bytes,
`registerClient` makes `N - 1` stores through `strncpy`, all at indices below `N - 1`, and one
more store of a zero at index `N - 1`; no store has an index `≥ N`. The field of the response it
sends has `N` bytes, byte `N - 1` is zero, and the C string the field holds is the first `N - 1`
bytes of the C string of the name (all of it when it is shorter); for a name without zero bytes
that is the first `min (length name) (N - 1)` bytes of the name. -/
theorem shared_memory_name_bounded (d : Declarations) (p : Platform) (message : MessageHeader)
    (isMaster : Bool) (s : DeepDriveClientConnection) (sink : SharedMemSink)
    (hN : 1 ≤ d.SharedMemNameSize)
    (hfield : d.newRegisterClientResponse.shared_memory_name.length = d.SharedMemNameSize)
    (hsock : s.m_Socket ≠ none) (hsink : p.getSharedMemorySink = some sink) :
    (strncpy sink.sharedMemoryName (d.SharedMemNameSize - 1)).length = d.SharedMemNameSize - 1 ∧
    (∀ w ∈ strncpy sink.sharedMemoryName (d.SharedMemNameSize - 1),
      w.1 < d.SharedMemNameSize - 1) ∧
    (∀ w ∈ sharedMemoryNameStores d sink.sharedMemoryName, w.1 < d.SharedMemNameSize) ∧
    ∃ response : RegisterClientResponse,
      registerClient d p message isMaster s
        = .ok ({ s with m_isMaster := true },
            [Event.Send (Wire.RegisterClientResponse response)]) ∧
      response.shared_memory_name
        = applyStores d.newRegisterClientResponse.shared_memory_name
            (sharedMemoryNameStores d sink.sharedMemoryName) ∧
      response.shared_memory_name.length = d.SharedMemNameSize ∧
      response.shared_memory_name[d.SharedMemNameSize - 1]? = some 0 ∧
      response.shared_memory_name.takeWhile (fun b => b ≠ 0)
        = (sink.sharedMemoryName.takeWhile (fun b => b ≠ 0)).take (d.SharedMemNameSize - 1) ∧
      ((∀ b ∈ sink.sharedMemoryName, b ≠ 0) →
        response.shared_memory_name.takeWhile (fun b => b ≠ 0)
          = sink.sharedMemoryName.take
              (min sink.sharedMemoryName.length (d.SharedMemNameSize - 1))) := by
  have hF := shared_memory_name_field d sink.sharedMemoryName
    d.newRegisterClientResponse.shared_memory_name hN (by omega)
  have hdrop : d.newRegisterClientResponse.shared_memory_name.drop d.SharedMemNameSize = [] :=
    List.drop_eq_nil_of_le (by omega)
  rw [hdrop] at hF
  have hstores : ∀ w ∈ strncpy sink.sharedMemoryName (d.SharedMemNameSize - 1),
      w.1 < d.SharedMemNameSize - 1 := by
    intro w hw
    unfold strncpy at hw
    obtain ⟨i, hi, rfl⟩ := List.mem_map.mp hw
    exact List.mem_range.mp hi
  have hcstr : (applyStores d.newRegisterClientResponse.shared_memory_name
        (sharedMemoryNameStores d sink.sharedMemoryName)).takeWhile (fun b => b ≠ 0)
      = (sink.sharedMemoryName.takeWhile (fun b => b ≠ 0)).take (d.SharedMemNameSize - 1) := by
    rw [hF]
    apply cstr_of_stores
    intro x hx
    have := List.mem_takeWhile_imp hx
    simpa using this
  refine ⟨by simp [strncpy], hstores, ?_, ?_⟩
  · intro w hw
    unfold sharedMemoryNameStores at hw
    rcases List.mem_append.mp hw with h | h
    · have := hstores w h
      omega
    · simp only [List.mem_singleton] at h
      subst h
      simp only
      omega
  · cases hs : s.m_Socket with
    | none => exact absurd hs hsock
    | some sock =>
      simp only [registerClient, hs, hsink]
      refine ⟨_, rfl, rfl, ?_, ?_, hcstr, ?_⟩
      · simp only [hF]
        simp
        omega
      · simp only [hF]
        rw [List.getElem?_append_right (by simp)]
        simp
      · intro hnz
        simp only [hcstr]
        have hall : sink.sharedMemoryName.takeWhile (fun b => b ≠ 0) = sink.sharedMemoryName := by
          rw [List.takeWhile_eq_self_iff]
          intro x hx
          simpa using hnz x hx
        rw [hall]
        rcases Nat.le_total sink.sharedMemoryName.length (d.SharedMemNameSize - 1) with h | h
        · rw [Nat.min_eq_left h, List.take_of_length_le h, List.take_of_length_le (Nat.le_refl _)]
        · rw [Nat.min_eq_right h]

theorem shared_memory_name_bounded_witness :
    1 ≤ exampleDeclarations.SharedMemNameSize ∧
    exampleDeclarations.newRegisterClientResponse.shared_memory_name.length
      = exampleDeclarations.SharedMemNameSize ∧
    exampleConnection.m_Socket ≠ none ∧
    examplePlatform.getSharedMemorySink = some exampleSink ∧
    ∃ response : RegisterClientResponse,
      registerClient exampleDeclarations examplePlatform exampleRegister false exampleConnection
        = .ok ({ exampleConnection with m_isMaster := true },
            [Event.Send (Wire.RegisterClientResponse response)]) ∧
      response.shared_memory_name
        = applyStores exampleDeclarations.newRegisterClientResponse.shared_memory_name
            (sharedMemoryNameStores exampleDeclarations exampleSink.sharedMemoryName) ∧
      response.shared_memory_name.length = exampleDeclarations.SharedMemNameSize ∧
      response.shared_memory_name[exampleDeclarations.SharedMemNameSize - 1]? = some 0 ∧
      response.shared_memory_name.takeWhile (fun b => b ≠ 0)
        = (exampleSink.sharedMemoryName.takeWhile (fun b => b ≠ 0)).take
            (exampleDeclarations.SharedMemNameSize - 1) ∧
      ((∀ b ∈ exampleSink.sharedMemoryName, b ≠ 0) →
        response.shared_memory_name.takeWhile (fun b => b ≠ 0)
          = exampleSink.sharedMemoryName.take
              (min exampleSink.sharedMemoryName.length
                (exampleDeclarations.SharedMemNameSize - 1))) :=
  ⟨by decide, rfl, by decide, rfl,
    (shared_memory_name_bounded exampleDeclarations examplePlatform exampleRegister false
      exampleConnection exampleSink (by decide) rfl (by decide) rfl).2.2.2⟩

end DeepDrive
